import Mathlib

/-!
Verification development for the roadmap-builder repository.

This file gives a shallow embedding, in Lean 4, of the date-normalization and
grid-positioning core of the repository (`src/web/utilities/date-utility.js`,
the `RoadmapGenerator` in `src/unnamed/part_002`, and the `ConfigUtility`
layout helpers in `src/web/utilities/imo-view-generator.js`), together with
theorems settling the frozen claims about that core.

Modelling conventions, used throughout:

* JavaScript strings are Lean `String`s; string scanning is done on `.data`
  (the underlying `List Char`).  Case mapping, trimming and regular-expression
  tests are embedded as explicit ASCII character functions: the inputs the
  core consumes (dates, month names) are ASCII.
* JavaScript numbers that hold calendar components are `Nat`; a JavaScript
  `NaN` produced by `parseInt` is `Option.none`.  Negative numeric components
  (possible in JS via `parseInt("-5")`) are outside the modelled input space
  and also map to `none`.
* `new Date(s)` is modelled by `jsNewDate`: a string in the ISO form
  `YYYY-MM-DD` (optionally followed by `T00:00:00`) with a calendar-valid
  month/day parses to its components; every other string is modelled as an
  invalid date.  All reachable non-ISO arguments in the embedded code are
  strings that V8 also rejects (e.g. the European leftovers `"29/02"`,
  `"31/02/25"` whose US-style month field is out of range).  Dates are
  timezone-naive, matching the spec's stated assumption.
* `new Date()` (the wall clock) is made an explicit `now : Nat` parameter
  (the current year) wherever the source calls it.
-/

namespace JsModel

/-- A parsed JavaScript `Date`, reduced to its calendar components. -/
structure JSDate where
  year : Nat
  month : Nat
  day : Nat
deriving DecidableEq, Repr

/-- ASCII digit test, the model of the regex class `\d`. -/
def isDig (c : Char) : Bool := 48 ≤ c.toNat && c.toNat ≤ 57

/-- Value of an ASCII digit character. -/
def digVal (c : Char) : Nat := c.toNat - 48

/-- Numeric value of a digit string (most significant first). -/
def digitsToNat (l : List Char) : Nat := l.foldl (fun a c => a * 10 + digVal c) 0

/-- JS whitespace test (ASCII subset), the model of `\s` and of `trim`. -/
def isJsSpace (c : Char) : Bool :=
  c.toNat == 32 || c.toNat == 9 || c.toNat == 10 || c.toNat == 13 || c.toNat == 11 || c.toNat == 12

/-- Word-character test, the model of the regex class `\w` ( `[A-Za-z0-9_]` ). -/
def isWordChar (c : Char) : Bool :=
  (65 ≤ c.toNat && c.toNat ≤ 90) || (97 ≤ c.toNat && c.toNat ≤ 122) ||
    (48 ≤ c.toNat && c.toNat ≤ 57) || c.toNat == 95

/-- ASCII upper-casing of one character, the model of `toUpperCase()`. -/
def upChar (c : Char) : Char :=
  if 97 ≤ c.toNat ∧ c.toNat ≤ 122 then Char.ofNat (c.toNat - 32) else c

/-- ASCII lower-casing of one character, the model of `toLowerCase()`. -/
def downChar (c : Char) : Char :=
  if 65 ≤ c.toNat ∧ c.toNat ≤ 90 then Char.ofNat (c.toNat + 32) else c

/-- `s.toUpperCase()` on ASCII strings. -/
def jsToUpper (s : String) : String := String.mk (s.data.map upChar)

/-- `s.toLowerCase()` on ASCII strings. -/
def jsToLower (s : String) : String := String.mk (s.data.map downChar)

/-- `s.trim()`: strip JS whitespace from both ends. -/
def jsTrim (s : String) : String :=
  String.mk (((s.data.dropWhile isJsSpace).reverse.dropWhile isJsSpace).reverse)

/-- ASCII digit character for `n % 10`. -/
def digChar (n : Nat) : Char :=
  match n % 10 with
  | 0 => '0'
  | 1 => '1'
  | 2 => '2'
  | 3 => '3'
  | 4 => '4'
  | 5 => '5'
  | 6 => '6'
  | 7 => '7'
  | 8 => '8'
  | 9 => '9'
  | _ => '0'

/-- Decimal digits of `n`, most significant first (`fuel` bounds the
recursion; any `fuel > n` is enough). -/
def natDigitsAux : Nat → Nat → List Char
  | 0, _ => []
  | f + 1, n => if n < 10 then [digChar n] else natDigitsAux f (n / 10) ++ [digChar n]

/-- `String(n)` for a JS integer: decimal rendering. -/
def natRepr (n : Nat) : String := String.mk (natDigitsAux (n + 1) n)

/-- `String(n).padStart(2, '0')` for a natural number. -/
def pad2 (n : Nat) : String := if n < 10 then "0" ++ natRepr n else natRepr n

/-- `parseInt(s)`: skip leading whitespace and an optional `+`, then read a
decimal digit run; no digits gives `NaN`, modelled as `none`. -/
def parseIntJS (l : List Char) : Option Nat :=
  let l1 := l.dropWhile isJsSpace
  let l2 := match l1 with
    | c :: t => if c == '+' then t else l1
    | [] => l1
  let ds := l2.takeWhile isDig
  if ds.isEmpty then none else some (digitsToNat ds)

/-- `s.split(sep)` for a single-character separator (keeps empty fields,
exactly like the JS `split`). -/
def splitChar (sep : Char) : List Char → List (List Char)
  | [] => [[]]
  | c :: rest =>
    let r := splitChar sep rest
    if c == sep then [] :: r
    else
      match r with
      | h :: t => (c :: h) :: t
      | [] => [[c]]

/-- Does `pre` occur at the front of `l`?  (Model of a regex alternative
anchored at the current position.) -/
def leadsWith : List Char → List Char → Bool
  | [], _ => true
  | _ :: _, [] => false
  | a :: as, b :: bs => (a == b) && leadsWith as bs

/-- `s.includes(sub)`: substring occurrence test. -/
def containsSub (l sub : List Char) : Bool :=
  leadsWith sub l ||
    match l with
    | [] => false
    | _ :: t => containsSub t sub

/-- First hit of `f` over a list, in order (the model of trying regex
alternatives / loop iterations with early return). -/
def firstHit (f : α → Option β) : List α → Option β
  | [] => none
  | a :: as =>
    match f a with
    | some b => some b
    | none => firstHit f as

/-- `list.indexOf(x)` for strings, as an `Option` index. -/
def listIndexOf (x : String) : List String → Nat → Option Nat
  | [], _ => none
  | a :: as, i => if a == x then some i else listIndexOf x as (i + 1)

/-- JS truthiness for an optional string field: `undefined` and `""` are falsy. -/
def strOpt : Option String → Option String
  | some s => if s = "" then none else some s
  | none => none

end JsModel

open JsModel

namespace ConfigUtility

/-- `ConfigUtility.MONTHS.NAMES`. -/
def monthNAMES : List String :=
  ["JAN", "FEB", "MAR", "APR", "MAY", "JUN", "JUL", "AUG", "SEP", "OCT", "NOV", "DEC"]

/-- `ConfigUtility.MONTHS.FULL_NAMES`. -/
def monthFULLNAMES : List String :=
  ["JANUARY", "FEBRUARY", "MARCH", "APRIL", "MAY", "JUNE", "JULY", "AUGUST",
   "SEPTEMBER", "OCTOBER", "NOVEMBER", "DECEMBER"]

/-- `ConfigUtility.MONTHS.GRID_POSITIONS`: the month-name → base-column table
(object literal, one entry per distinct key). -/
def GRID_POSITIONS : List (String × Nat) :=
  [("JAN", 1), ("JANUARY", 1), ("FEB", 11), ("FEBRUARY", 11), ("MAR", 21), ("MARCH", 21),
   ("APR", 31), ("APRIL", 31), ("MAY", 41), ("JUN", 51), ("JUNE", 51), ("JUL", 61), ("JULY", 61),
   ("AUG", 71), ("AUGUST", 71), ("SEP", 81), ("SEPTEMBER", 81), ("OCT", 91), ("OCTOBER", 91),
   ("NOV", 101), ("NOVEMBER", 101), ("DEC", 111), ("DECEMBER", 111)]

/-- `ConfigUtility.getMonthGridPosition(month)`:
`this.MONTHS.GRID_POSITIONS[month.toUpperCase()] || 1`. -/
def getMonthGridPosition (month : String) : Nat :=
  (GRID_POSITIONS.lookup (jsToUpper month)).getD 1

/-- `ConfigUtility.TEXT_BOX_WIDTHS` for the keys 1..7. -/
def TEXT_BOX_WIDTHS : Nat → Option Nat
  | 1 => some 16
  | 2 => some 26
  | 3 => some 38
  | 4 => some 50
  | 5 => some 62
  | 6 => some 74
  | 7 => some 85
  | _ => none

/-- `ConfigUtility.calculateTextBoxWidth(totalItems)`. -/
def calculateTextBoxWidth (totalItems : Nat) : Nat :=
  if totalItems ≤ 7 then (TEXT_BOX_WIDTHS totalItems).getD 16
  else 85 + (totalItems - 7) * 12

/-- `ConfigUtility.getMaxGrid()` = `GRID.MAX_COLUMNS`. -/
def getMaxGrid : Nat := 120

/-- `ConfigUtility.exceedsMaxGrid(gridPosition)`. -/
def exceedsMaxGrid (gridPosition : Nat) : Bool := gridPosition > getMaxGrid

end ConfigUtility

namespace DateUtility

/-- `DateUtility.monthNames`. -/
def monthNames : List String := ConfigUtility.monthNAMES

/-- `DateUtility.fullMonthNames`. -/
def fullMonthNames : List String := ConfigUtility.monthFULLNAMES

/-- `DateUtility.getMonthName(monthNumber)`: month number 1..12 to a 3-letter
name, `'JAN'` for anything out of range. -/
def getMonthName (monthNumber : Nat) : String :=
  if monthNumber < 1 ∨ monthNumber > 12 then "JAN"
  else monthNames.getD (monthNumber - 1) "JAN"

/-- Days in a month under the Gregorian leap-year rule (the behaviour of the
JS `new Date(year, month, 0).getDate()` idiom used by the source). -/
def daysInMonth (year month : Nat) : Nat :=
  if month = 2 then
    if (year % 4 = 0 ∧ year % 100 ≠ 0) ∨ year % 400 = 0 then 29 else 28
  else if month = 4 ∨ month = 6 ∨ month = 9 ∨ month = 11 then 30
  else 31

/-- The regex `^\d{4}-\d{2}-\d{2}$` (shape only, no calendar validation). -/
def matchesISOFormat (s : String) : Bool :=
  match s.data with
  | [y1, y2, y3, y4, h1, m1, m2, h2, d1, d2] =>
    isDig y1 && isDig y2 && isDig y3 && isDig y4 && (h1 == '-') &&
      isDig m1 && isDig m2 && (h2 == '-') && isDig d1 && isDig d2
  | _ => false

/-- Numeric components of a string in the ISO shape (0,0,0 otherwise). -/
def isoComponents (s : String) : Nat × Nat × Nat :=
  match s.data with
  | [y1, y2, y3, y4, _, m1, m2, _, d1, d2] =>
    (((digVal y1 * 10 + digVal y2) * 10 + digVal y3) * 10 + digVal y4,
      digVal m1 * 10 + digVal m2, digVal d1 * 10 + digVal d2)
  | _ => (0, 0, 0)

/-- The ISO string `y1y2y3y4-m1m2-d1d2` assembled from its characters (used
by the theorems to quantify over all ISO-shaped inputs). -/
def mkISO (y1 y2 y3 y4 m1 m2 d1 d2 : Char) : String :=
  String.mk [y1, y2, y3, y4, '-', m1, m2, '-', d1, d2]

/-- A three-part European date string `a s1 b s2 c` (day group, separator,
month group, separator, year group), used by the theorems to quantify over
all year-carrying European inputs. -/
def mkEuro (a : List Char) (s1 : Char) (b : List Char) (s2 : Char) (c : List Char) : String :=
  String.mk (a ++ (s1 :: (b ++ (s2 :: c))))

/-- A two-part European date string `a s1 b` (day group, separator, month
group; no year), used by the theorems to quantify over all year-less
European inputs. -/
def mkEuro2 (a : List Char) (s1 : Char) (b : List Char) : String :=
  String.mk (a ++ s1 :: b)

/-- Model of `new Date(s)` (see the conventions at the top of the file):
an ISO `YYYY-MM-DD` string, optionally suffixed with `T00:00:00`, parses to
its components when the month/day are calendar-valid; anything else is an
invalid date. -/
def jsNewDate (s : String) : Option JSDate :=
  let core : String := String.mk (s.data.take 10)
  let rest : List Char := s.data.drop 10
  if rest = [] ∨ rest = ['T', '0', '0', ':', '0', '0', ':', '0', '0'] then
    if matchesISOFormat core then
      let c := isoComponents core
      if 1 ≤ c.2.1 ∧ c.2.1 ≤ 12 ∧ 1 ≤ c.2.2 ∧ c.2.2 ≤ daysInMonth c.1 c.2.1 then
        some ⟨c.1, c.2.1, c.2.2⟩
      else none
    else none
  else none

/-- The regex `^\d{1,2}[\/\-]\d{1,2}([\/\-]\d{2,4})?$`, returned with its
captured numeric components (day field, month field, optional year field).
Greedy matching with backtracking on this anchored pattern is equivalent to
taking maximal digit runs, which is what this parser does. -/
def euroParse (l : List Char) : Option (Nat × Nat × Option Nat) :=
  let d1 := l.takeWhile isDig
  let r1 := l.dropWhile isDig
  if 1 ≤ d1.length ∧ d1.length ≤ 2 then
    match r1 with
    | s1 :: r2 =>
      if s1 = '/' ∨ s1 = '-' then
        let d2 := r2.takeWhile isDig
        let r3 := r2.dropWhile isDig
        if 1 ≤ d2.length ∧ d2.length ≤ 2 then
          match r3 with
          | [] => some (digitsToNat d1, digitsToNat d2, none)
          | s2 :: r4 =>
            if s2 = '/' ∨ s2 = '-' then
              let d3 := r4.takeWhile isDig
              let r5 := r4.dropWhile isDig
              if 2 ≤ d3.length ∧ d3.length ≤ 4 ∧ r5 = [] then
                some (digitsToNat d1, digitsToNat d2, some (digitsToNat d3))
              else none
            else none
        else none
      else none
    | [] => none
  else none

/-- `roadmapYear || <fallback>`: JS truthiness on the optional year (both
`null` and `0` fall back). -/
def jsOrYear (roadmapYear : Option Nat) (fallback : Nat) : Nat :=
  match roadmapYear with
  | some y => if y = 0 then fallback else y
  | none => fallback

/-- `DateUtility.convertEuropeanToISO(dateStr, roadmapYear)`.
`now` is the wall-clock year used by the `new Date().getFullYear()` fallback.
Where the source lets a `NaN` day/month flow into an unparseable ISO string
and then returns `dateStr`, this model returns `dateStr` directly (same
result). -/
def convertEuropeanToISO (dateStr : String) (roadmapYear : Option Nat) (now : Nat) : String :=
  if dateStr = "" then dateStr
  else
    let parts : Option (List (List Char)) :=
      if dateStr.data.contains '/' then some (splitChar '/' dateStr.data)
      else if dateStr.data.contains '-' then some (splitChar '-' dateStr.data)
      else none
    match parts with
    | none => dateStr
    | some ps =>
      if ps.length ≥ 2 then
        match parseIntJS (ps.getD 0 []), parseIntJS (ps.getD 1 []) with
        | some day0, some month0 =>
          -- swap auto-correction: `if (month > 12 && day <= 12) [day, month] = [month, day]`
          let day := if month0 > 12 ∧ day0 ≤ 12 then month0 else day0
          let month := if month0 > 12 ∧ day0 ≤ 12 then day0 else month0
          if day < 1 ∨ day > 31 ∨ month < 1 ∨ month > 12 then dateStr
          else
            -- `parts[2] || (roadmapYear || now).toString()` (empty third field is falsy)
            let yearStr : String :=
              match ps.getD 2 [] with
              | [] => natRepr (jsOrYear roadmapYear now)
              | l => String.mk l
            -- two-digit years always map into the 2000s
            let yearStr :=
              if yearStr.length = 2 then
                match parseIntJS yearStr.data with
                | some v => natRepr (2000 + v)
                | none => "NaN"
              else yearStr
            let iso := yearStr ++ "-" ++ pad2 month ++ "-" ++ pad2 day
            match jsNewDate iso with
            | some _ => iso
            | none => dateStr
        | _, _ => dateStr
      else dateStr

/-- The value `convertEuropeanToISO` computes for a split into at least two
parts once the day/month fields and the year string are fixed — the year
string is a parameter, so this expression never consults the wall clock.
Factored out of `convertEuropeanToISO` for the determinism theorem. -/
def euroConvertResult (orig : String) (day0 month0 : Option Nat) (yearStr0 : String) : String :=
  match day0, month0 with
  | some day0, some month0 =>
    let day := if month0 > 12 ∧ day0 ≤ 12 then month0 else day0
    let month := if month0 > 12 ∧ day0 ≤ 12 then day0 else month0
    if day < 1 ∨ day > 31 ∨ month < 1 ∨ month > 12 then orig
    else
      let yearStr :=
        if yearStr0.length = 2 then
          match parseIntJS yearStr0.data with
          | some v => natRepr (2000 + v)
          | none => "NaN"
        else yearStr0
      let iso := yearStr ++ "-" ++ pad2 month ++ "-" ++ pad2 day
      match jsNewDate iso with
      | some _ => iso
      | none => orig
  | _, _ => orig

/-- `DateUtility.parseDateSafe(dateStr)`: only European and ISO formats, no
US fallback.  `now` is the wall-clock year threaded into
`convertEuropeanToISO(dateStr, null)`. -/
def parseDateSafe (dateStr : String) (now : Nat) : Option JSDate :=
  if dateStr = "" then none
  else if (euroParse dateStr.data).isSome then
    jsNewDate (convertEuropeanToISO dateStr none now)
  else if matchesISOFormat dateStr then
    jsNewDate (dateStr ++ "T00:00:00")
  else none

/-- The 4-position sub-month mapping of `dateToGrid`: days 1–3 → 0 (adjusted
by callers), 4–10 → 3, 11–20 → 6, 21–25 → 9, 26–31 → 9 (overridden to a full
month by the end-of-month handling in callers). -/
def positionWithinMonth (day : Nat) : Nat :=
  if 1 ≤ day ∧ day ≤ 3 then 0
  else if 4 ≤ day ∧ day ≤ 10 then 3
  else if 11 ≤ day ∧ day ≤ 20 then 6
  else if 21 ≤ day ∧ day ≤ 25 then 9
  else 9

/-- The base column of month `m` (1..12) in the `MonthGridTable`:
`getMonthGridPosition` composed with `getMonthName`, exactly the lookup the
generator performs. -/
def monthBaseColumn (m : Nat) : Nat :=
  ConfigUtility.getMonthGridPosition (getMonthName m)

/-- `DateUtility.dateToGrid(dateStr, monthToGridCallback)` with the callback
fixed to `ConfigUtility.getMonthGridPosition` (as in `RoadmapGenerator`):
base column of the date's month plus the 4-position offset. -/
def dateToGrid (dateStr : String) : Nat :=
  match jsNewDate dateStr with
  | none => 1
  | some d => monthBaseColumn d.month + positionWithinMonth d.day

/-- `DateUtility.getGridPosition(value, monthToGridCallback)` with the same
fixed callback.  `now` is the wall-clock year reaching
`convertEuropeanToISO(value, null)`. -/
def getGridPosition (value : String) (now : Nat) : Nat :=
  if value = "" then 1
  else if matchesISOFormat value then dateToGrid value
  else if (euroParse value.data).isSome then
    dateToGrid (convertEuropeanToISO value none now)
  else ConfigUtility.getMonthGridPosition value

/-- `DateUtility.isEndOfMonth(dateStr)`: day of month 26..31. -/
def isEndOfMonth (dateStr : String) (now : Nat) : Bool :=
  match parseDateSafe dateStr now with
  | none => false
  | some d => d.day ≥ 26

/-- `DateUtility.isStartOfMonth(dateStr)`: day of month 1..3. -/
def isStartOfMonth (dateStr : String) (now : Nat) : Bool :=
  match parseDateSafe dateStr now with
  | none => false
  | some d => 1 ≤ d.day ∧ d.day ≤ 3

/-- `DateUtility.isEndOfPreviousMonth(dateStr)`: also day of month 1..3. -/
def isEndOfPreviousMonth (dateStr : String) (now : Nat) : Bool :=
  match parseDateSafe dateStr now with
  | none => false
  | some d => 1 ≤ d.day ∧ d.day ≤ 3

/-- `DateUtility.getPreviousMonthName(dateStr)`: `setMonth(m-1)` semantics,
including the JS day-overflow rollover (if the current day does not exist in
the previous month the date rolls forward into the original month).  Returns
`""` for an unparseable date (the source returns `null`; every caller guards
this case away). -/
def getPreviousMonthName (dateStr : String) (now : Nat) : String :=
  match parseDateSafe dateStr now with
  | none => ""
  | some d =>
    let pm := if d.month = 1 then 12 else d.month - 1
    let py := if d.month = 1 then d.year - 1 else d.year
    if d.day > daysInMonth py pm then getMonthName (if pm = 12 then 1 else pm + 1)
    else getMonthName pm

/-- The month-name alternation of the `monthDayPattern` / `dayMonthPattern`
regexes in `parseTextValue`, in source order (note: no second `MAY`). -/
def monthAlternatives : List String :=
  ["JAN", "FEB", "MAR", "APR", "MAY", "JUN", "JUL", "AUG", "SEP", "OCT", "NOV", "DEC",
   "JANUARY", "FEBRUARY", "MARCH", "APRIL", "JUNE", "JULY", "AUGUST",
   "SEPTEMBER", "OCTOBER", "NOVEMBER", "DECEMBER"]

/-- The optional ordinal group `(ST|ND|RD|TH)?`: consume it when present. -/
def stripOrdinal (l : List Char) : List Char :=
  if leadsWith "ST".data l ∨ leadsWith "ND".data l ∨ leadsWith "RD".data l ∨
      leadsWith "TH".data l then
    l.drop 2
  else l

/-- The regex
`^(JAN|...|DECEMBER)\s*(\d{1,2})(ST|ND|RD|TH)?\s*$` of `parseTextValue`
(e.g. `"FEB 8"`, `"FEB 8TH"`).  Alternatives are tried in source order;
greedy matching with backtracking on this anchored pattern is equivalent to
the maximal-run scanning done here. -/
def matchMonthDay (l : List Char) : Option (String × Nat) :=
  firstHit (fun name =>
    if leadsWith name.data l then
      let r := (l.drop name.data.length).dropWhile isJsSpace
      let ds := r.takeWhile isDig
      let r2 := r.dropWhile isDig
      if 1 ≤ ds.length ∧ ds.length ≤ 2 then
        if (stripOrdinal r2).all isJsSpace then some (name, digitsToNat ds) else none
      else none
    else none) monthAlternatives

/-- The regex
`^(\d{1,2})(ST|ND|RD|TH)?\s+(JAN|...|DECEMBER)\s*$` of `parseTextValue`
(e.g. `"8 FEB"`, `"8TH FEB"`). -/
def matchDayMonth (l : List Char) : Option (Nat × String) :=
  let ds := l.takeWhile isDig
  let r := l.dropWhile isDig
  if 1 ≤ ds.length ∧ ds.length ≤ 2 then
    let r2 := stripOrdinal r
    if 1 ≤ (r2.takeWhile isJsSpace).length then
      let r3 := r2.dropWhile isJsSpace
      firstHit (fun name =>
        if leadsWith name.data r3 ∧ (r3.drop name.data.length).all isJsSpace then
          some (digitsToNat ds, name)
        else none) monthAlternatives
    else none
  else none

/-- `indexOf` in `monthNames`, falling back to `fullMonthNames` (the pattern
used at each match site in `parseTextValue`).  Every name produced by
`matchMonthDay`/`matchDayMonth` is in one of the two lists, so for those the
fallback chain never fails (mirroring the JS `monthIndex !== -1` flow). -/
def nameIndex (name : String) : Option Nat :=
  match listIndexOf name monthNames 0 with
  | some i => some i
  | none => listIndexOf name fullMonthNames 0

/-- `DateUtility.parseTextValue(value, isEndDateField, roadmapYear)`: month
names (bare, month+day, day+month) and European numeric dates, returning an
ISO string or `""`.  `now` is the wall-clock year used by the
`roadmapYear || new Date().getFullYear()` fallback.  The last-day-of-month
default uses the `new Date(year, monthIndex + 1, 0).getDate()` idiom,
embedded as `daysInMonth`. -/
def parseTextValue (value : String) (isEndDateField : Bool) (roadmapYear : Option Nat)
    (now : Nat) : String :=
  if value = "" then ""
  else
    let currentYear := jsOrYear roadmapYear now
    let upperValue := jsTrim (jsToUpper value)
    let found : Option Nat × Option Nat :=
      match matchMonthDay upperValue.data with
      | some (name, d) => (nameIndex name, some d)
      | none =>
        match matchDayMonth upperValue.data with
        | some (d, name) => (nameIndex name, some d)
        | none => (nameIndex upperValue, none)
    match found with
    | (some mi, dayValue) =>
      let finalDay :=
        match dayValue with
        | some dv =>
          if 1 ≤ dv ∧ dv ≤ 31 then dv
          else if isEndDateField then daysInMonth currentYear (mi + 1) else 1
        | none => if isEndDateField then daysInMonth currentYear (mi + 1) else 1
      natRepr currentYear ++ "-" ++ pad2 (mi + 1) ++ "-" ++ pad2 finalDay
    | (none, _) =>
      match euroParse value.data with
      | some (day0, month0, yOpt) =>
        let year0 := yOpt.getD currentYear
        -- swap auto-correction: `if (month > 12 && day <= 12) [day, month] = [month, day]`
        let day := if month0 > 12 ∧ day0 ≤ 12 then month0 else day0
        let month := if month0 > 12 ∧ day0 ≤ 12 then day0 else month0
        if day < 1 ∨ day > 31 ∨ month < 1 ∨ month > 12 then ""
        else
          let year := if year0 < 100 then 2000 + year0 else year0
          let result := natRepr year ++ "-" ++ pad2 month ++ "-" ++ pad2 day
          -- `new Date(result)` validation; the subsequent component-equality
          -- re-check always holds for a valid ISO parse
          match jsNewDate result with
          | some _ => result
          | none => ""
      | none => ""

end DateUtility

namespace RoadmapGenerator

open DateUtility

/-- The display month names used by the continuation indicator
(`['Jan', 'Feb', ...]` at line 848 of the generator). -/
def monthNamesDisplay : List String :=
  ["Jan", "Feb", "Mar", "Apr", "May", "Jun", "Jul", "Aug", "Sep", "Oct", "Nov", "Dec"]

/-- The month map of `convertStoryDateToISO`, in `Object.entries` order. -/
def monthSearchList : List (String × String) :=
  [("jan", "01"), ("january", "01"), ("feb", "02"), ("february", "02"),
   ("mar", "03"), ("march", "03"), ("apr", "04"), ("april", "04"), ("may", "05"),
   ("jun", "06"), ("june", "06"), ("jul", "07"), ("july", "07"),
   ("aug", "08"), ("august", "08"), ("sep", "09"), ("sept", "09"), ("september", "09"),
   ("oct", "10"), ("october", "10"), ("nov", "11"), ("november", "11"),
   ("dec", "12"), ("december", "12")]

/-- The test `/\d+\/\d+/.test(str)`: a digit immediately before a `/` with a
digit immediately after it, somewhere in the string. -/
def hasDigitSlashDigit : List Char → Bool
  | a :: s :: b :: rest => (isDig a && (s == '/') && isDig b) || hasDigitSlashDigit (s :: b :: rest)
  | _ => false

/-- `str.match(/\d+/)`: the first maximal digit run. -/
def firstDigitRun : List Char → Option (List Char)
  | [] => none
  | c :: rest =>
    if isDig c then some (c :: rest.takeWhile isDig) else firstDigitRun rest

/-- `str.match(/\b\d{2,4}\b/)`: the first maximal digit run of length 2..4
whose neighbours on both sides are not word characters.  (Runs of other
lengths, or runs glued to word characters, admit no match anywhere inside
them, so scanning whole runs is equivalent to the regex search.) -/
def firstBoundedRunAux (prev : Option Char) : List Char → Option (List Char)
  | [] => none
  | c :: rest =>
    let prevIsWord := match prev with
      | some p => isWordChar p
      | none => false
    if isDig c && !prevIsWord then
      let run := c :: rest.takeWhile isDig
      let after := rest.dropWhile isDig
      let okAfter : Bool := match after with
        | [] => true
        | a :: _ => !isWordChar a
      if decide (2 ≤ run.length) && decide (run.length ≤ 4) && okAfter then some run
      else firstBoundedRunAux (some c) rest
    else firstBoundedRunAux (some c) rest

/-- Entry point for `firstBoundedRunAux`. -/
def firstBoundedRun (l : List Char) : Option (List Char) := firstBoundedRunAux none l

/-- `RoadmapGenerator.convertStoryDateToISO(dateStr, defaultYear)`: ISO
verbatim, `DD/MM[/YY]`, or a month name found anywhere in the string with the
first digit run as day and the first word-bounded 2–4-digit run as year.
`now` models `new Date().getFullYear()` (reached when `defaultYear` is 0). -/
def convertStoryDateToISO (dateStr : String) (defaultYear now : Nat) : Option String :=
  if dateStr = "" then none
  else
    let str := jsTrim (jsToLower dateStr)
    let currentYear := if defaultYear = 0 then now else defaultYear
    if matchesISOFormat str then some str
    else
      let slashBranch : Option String :=
        if str.data.contains '/' && hasDigitSlashDigit str.data then
          let parts := splitChar '/' str.data
          if parts.length ≥ 2 then
            match parseIntJS (parts.getD 0 []), parseIntJS (parts.getD 1 []) with
            | some day, some month =>
              let yearOpt : Option Nat :=
                if parts.length > 2 then parseIntJS (parts.getD 2 []) else some currentYear
              let yearOpt := yearOpt.map (fun y => if y < 100 then 2000 + y else y)
              if 1 ≤ day ∧ day ≤ 31 ∧ 1 ≤ month ∧ month ≤ 12 then
                some ((match yearOpt with
                  | some y => natRepr y
                  | none => "NaN") ++ "-" ++ pad2 month ++ "-" ++ pad2 day)
              else none
            -- a NaN day/month fails the `day >= 1 && ...` range test, so the
            -- code falls through to the month-name scan
            | _, _ => none
          else none
        else none
      match slashBranch with
      | some r => some r
      | none =>
        let dayN : Nat :=
          match firstDigitRun str.data with
          | some run => digitsToNat run
          | none => 1
        let yearN : Nat :=
          match firstBoundedRun str.data with
          | some run =>
            let y := digitsToNat run
            if y < 100 then 2000 + y else y
          | none => currentYear
        firstHit (fun p =>
          if containsSub str.data p.1.data then
            if 1 ≤ dayN ∧ dayN ≤ 31 then
              some (natRepr yearN ++ "-" ++ p.2 ++ "-" ++ pad2 dayN)
            else none
          else none) monthSearchList

/-- A story record, restricted to the fields the span resolver reads and
writes.  `roadmapChanges` is not modelled: the embedded
`getEffectiveEndDate` below is the no-timeline-changes branch
(`story.endDate || story.endMonth`); no claim depends on the change-override
branch. -/
structure Story where
  startDate : Option String := none
  startMonth : Option String := none
  endDate : Option String := none
  endMonth : Option String := none
  originalStartDate : Option String := none
  startsInPreviousYear : Bool := false
  actualStartYear : Option Nat := none
deriving DecidableEq, Repr

/-- An optional bounded search range (`this.searchRange`). -/
structure SearchRange where
  startDate : Option String := none
  endDate : Option String := none
deriving DecidableEq, Repr

/-- `getEffectiveEndDate(story)` for a story without timeline changes:
`story.endDate || story.endMonth`. -/
def getEffectiveEndDate (story : Story) : Option String :=
  (strOpt story.endDate).orElse fun _ => strOpt story.endMonth

/-- `story.startDate || story.startMonth` (JS truthiness), with the absent
case mapped to `""` (which every consumer treats as an invalid value). -/
def startValueOf (story : Story) : String :=
  ((strOpt story.startDate).orElse fun _ => strOpt story.startMonth).getD ""

/-- `RoadmapGenerator.storyContinuesNextYear(story)`: the story's end date
resolves past the roadmap year, or past the search range's end date
(JS string comparison on ISO strings). -/
def storyContinuesNextYear (story : Story) (roadmapYear now : Nat)
    (searchRange : Option SearchRange) : Bool :=
  match strOpt story.endDate with
  | none => false
  | some ed =>
    match convertStoryDateToISO ed roadmapYear now with
    | none => false
    | some iso =>
      let endYear := parseIntJS ((splitChar '-' iso.data).getD 0 [])
      if decide (0 < roadmapYear) && (match endYear with
          | some y => decide (y > roadmapYear)
          | none => false) then true
      else
        match searchRange with
        | some sr =>
          match strOpt sr.endDate with
          | some se => decide (se < iso)
          | none => false
        | none => false

/-- `RoadmapGenerator.parseMonthToDate(monthStr, year)`: month name to the
first of that month (components of `new Date(year, month, 1)`). -/
def parseMonthToDate (monthStr : String) (year : Nat) : Option JSDate :=
  let table : List (String × Nat) :=
    [("jan", 0), ("january", 0), ("feb", 1), ("february", 1), ("mar", 2), ("march", 2),
     ("apr", 3), ("april", 3), ("may", 4), ("jun", 5), ("june", 5),
     ("jul", 6), ("july", 6), ("aug", 7), ("august", 7), ("sep", 8), ("sept", 8),
     ("september", 8), ("oct", 9), ("october", 9), ("nov", 10), ("november", 10),
     ("dec", 11), ("december", 11)]
  match table.lookup (jsToLower monthStr) with
  | some m => some ⟨year, m + 1, 1⟩
  | none => none

/-- Comparable key of a calendar date (`Date` timestamps order exactly this
way for calendar-valid components). -/
def dateKey (d : JSDate) : Nat := d.year * 10000 + d.month * 100 + d.day

/-- The three-part European regex `^\d{1,2}[\/\-]\d{1,2}[\/\-]\d{2,4}$`
(year mandatory) used by `storyStartsBeforeRange`. -/
def euroParse3 (l : List Char) : Bool :=
  match euroParse l with
  | some (_, _, some _) => true
  | _ => false

/-- `RoadmapGenerator.storyStartsBeforeRange(story)`.  The search-range start
is parsed by `split('-')`/`parseInt`/`new Date(y, m-1, d)`; month overflow in
that constructor is normalized, day overflow is outside the modelled input
space (search ranges are calendar dates). -/
def storyStartsBeforeRange (story : Story) (roadmapYear now : Nat)
    (searchRange : Option SearchRange) : Bool :=
  match searchRange with
  | none => false
  | some sr =>
    match strOpt sr.startDate with
    | none => false
    | some ss =>
      if (strOpt story.startDate).isNone ∧ (strOpt story.startMonth).isNone then false
      else
        let storyStartDate : Option JSDate :=
          match strOpt story.startDate with
          | some sd =>
            let iso := if euroParse3 sd.data then convertEuropeanToISO sd (some roadmapYear) now
              else sd
            jsNewDate iso
          | none =>
            match strOpt story.startMonth with
            | some sm =>
              if euroParse3 sm.data then jsNewDate (convertEuropeanToISO sm (some roadmapYear) now)
              else parseMonthToDate sm (if roadmapYear = 0 then now else roadmapYear)
            | none => none
        match storyStartDate with
        | none => false
        | some d =>
          let parts := splitChar '-' ss.data
          match parseIntJS (parts.getD 0 []), parseIntJS (parts.getD 1 []),
              parseIntJS (parts.getD 2 []) with
          | some y, some m, some dd =>
            -- `new Date(y, m - 1, dd)` with month normalization
            let m0 := m - 1
            decide (dateKey d ≤ dateKey ⟨y + m0 / 12, m0 % 12 + 1, dd⟩)
          | _, _, _ => false

/-- Lines 584–661 of `generateStory`: the start-column resolution, returning
the column together with the (possibly mutated) story record.  When the
start date parses to a year before the roadmap year the source overwrites
`story.startDate` with `01/01/<roadmapYear>` and records the original date
and year on the story object. -/
def generateStoryStartPair (story : Story) (roadmapYear now : Nat) : Nat × Story :=
  match strOpt story.startDate with
  | some sd =>
    let isoStartDate :=
      if (euroParse sd.data).isSome then convertEuropeanToISO sd (some roadmapYear) now else sd
    match jsNewDate isoStartDate with
    | some d =>
      if d.year < roadmapYear then
        let story' : Story :=
          { story with
            originalStartDate := some sd
            startDate := some ("01/01/" ++ natRepr roadmapYear)
            startsInPreviousYear := true
            actualStartYear := some d.year }
        let jan1IsoDate := natRepr roadmapYear ++ "-01-01"
        let g :=
          if isStartOfMonth jan1IsoDate now then ConfigUtility.getMonthGridPosition "JAN"
          else dateToGrid jan1IsoDate
        (g, story')
      else
        let g :=
          if isStartOfMonth isoStartDate now then
            ConfigUtility.getMonthGridPosition (getMonthName d.month)
          else if isEndOfPreviousMonth isoStartDate now then
            ConfigUtility.getMonthGridPosition (getPreviousMonthName isoStartDate now)
          else if d.day ≥ 28 then
            ConfigUtility.getMonthGridPosition
              (getMonthName (if d.month = 12 then 1 else d.month + 1))
          else
            let base := dateToGrid isoStartDate
            if 4 ≤ d.day ∧ d.day ≤ 27 then base - 2 else base
        (g, story)
    | none => (getGridPosition (startValueOf story) now, story)
  | none => (ConfigUtility.getMonthGridPosition ((strOpt story.startMonth).getD ""), story)

/-- Lines 663–714 of `generateStory`: the end-column resolution from the
effective end value, given the already-computed start column (used only for
the missing-end default of one month's width). -/
def generateStoryEndGrid (effectiveEndValue : Option String) (startGrid roadmapYear now : Nat) :
    Nat :=
  match effectiveEndValue with
  | none => startGrid + 10
  | some ev =>
    let evIsDate := ev.data.contains '-' || (euroParse ev.data).isSome
    let isEom := evIsDate && isEndOfMonth ev now
    let isEopm := evIsDate && isEndOfPreviousMonth ev now
    if !evIsDate then getGridPosition ev now + 10
    else if isEom then
      match parseDateSafe ev now with
      | some d => getGridPosition (getMonthName d.month) now + 10
      | none => 1 -- unreachable: `isEndOfMonth` implies `parseDateSafe` succeeds
    else if isEopm then getGridPosition (getPreviousMonthName ev now) now + 10
    else
      let isoEndDate :=
        if (euroParse ev.data).isSome then convertEuropeanToISO ev (some roadmapYear) now else ev
      match jsNewDate isoEndDate with
      | some d =>
        if isStartOfMonth isoEndDate now then getGridPosition isoEndDate now
        else if 4 ≤ d.day ∧ d.day ≤ 25 then getGridPosition isoEndDate now
        else getGridPosition isoEndDate now
      | none => getGridPosition ev now

/-- The span-resolution core of `generateStory` (lines 568–728): start and
end columns, with the cross-year clamp to December and the
starts-before-range clamp to January applied in source order (the December
clamp reads the end value, the January clamp overwrites only the start). -/
def generateStorySpan (story : Story) (roadmapYear now : Nat)
    (searchRange : Option SearchRange) : Nat × Nat :=
  let startGrid := (generateStoryStartPair story roadmapYear now).1
  let endGrid := generateStoryEndGrid (getEffectiveEndDate story) startGrid roadmapYear now
  let continuesNextYear := storyContinuesNextYear story roadmapYear now searchRange
  let startsBeforeRange := storyStartsBeforeRange story roadmapYear now searchRange
  let endGrid := if continuesNextYear then getGridPosition "DEC" now + 10 else endGrid
  let startGrid := if startsBeforeRange then getGridPosition "JAN" now else startGrid
  (startGrid, endGrid)

/-- Lines 841–862 of `generateStory`: the continuation indicator recovers the
actual end month and year from the original (unclamped) end date via
`convertStoryDateToISO`; `none` models the `"Dec" / roadmapYear + 1` fallback
taken when that conversion fails. -/
def continuationDisplay (endDate : String) (roadmapYear now : Nat) : Option (String × Nat) :=
  match convertStoryDateToISO endDate roadmapYear now with
  | none => none
  | some iso =>
    let parts := splitChar '-' iso.data
    match parseIntJS (parts.getD 0 []), parseIntJS (parts.getD 1 []) with
    | some y, some m => some (monthNamesDisplay.getD (m - 1) "", y)
    | _, _ => none

/-- Lines 1556–1599 of `generateEpic`: placement of the annotation text box
relative to the story bar.  Returns `(startColumn, endColumn, below?)`.
`visualStoryEndGrid` is the story's end column after the December clamp,
`actualEndGrid` the unadjusted end column used for same-row placement. -/
def resolveTextBoxPlacement (storyStartGrid visualStoryEndGrid actualEndGrid textBoxWidth : Nat)
    (continuesNextYear endsBetweenOct4AndDec31 forceBelowGlobal : Bool) : Nat × Nat × Bool :=
  let shouldPositionBelowFinal :=
    continuesNextYear || endsBetweenOct4AndDec31 ||
      ConfigUtility.exceedsMaxGrid (visualStoryEndGrid + 2 + textBoxWidth) || forceBelowGlobal
  if shouldPositionBelowFinal then
    let changeStartGrid := if forceBelowGlobal then storyStartGrid else storyStartGrid + 1
    let changeEndGrid := changeStartGrid + textBoxWidth
    if ConfigUtility.exceedsMaxGrid changeEndGrid then
      let overflow := changeEndGrid - ConfigUtility.getMaxGrid
      let s := max 1 (changeStartGrid - overflow)
      (s, s + textBoxWidth, true)
    else (changeStartGrid, changeEndGrid, true)
  else (actualEndGrid + 2, actualEndGrid + 2 + textBoxWidth, false)

end RoadmapGenerator

/-! ## Basic lemmas about the character and string model -/

namespace JsModel

theorem isDig_toNat {c : Char} (h : isDig c = true) : 48 ≤ c.toNat ∧ c.toNat ≤ 57 := by
  simpa [isDig] using h

theorem isDig_of_toNat {c : Char} (h1 : 48 ≤ c.toNat) (h2 : c.toNat ≤ 57) : isDig c = true := by
  simp [isDig, h1, h2]

theorem ne_of_isDig {c d : Char} (hc : isDig c = true) (hd : isDig d = false) : c ≠ d := by
  intro e
  rw [e, hd] at hc
  exact Bool.noConfusion hc

theorem beq_false_of_isDig {c d : Char} (hc : isDig c = true) (hd : isDig d = false) :
    (c == d) = false ∧ (d == c) = false := by
  refine ⟨beq_eq_false_iff_ne.mpr (ne_of_isDig hc hd), beq_eq_false_iff_ne.mpr ?_⟩
  exact (ne_of_isDig hc hd).symm

theorem upChar_eq_self {c : Char} (h : c.toNat < 97) : upChar c = c := by
  unfold upChar
  rw [if_neg]
  omega

theorem downChar_eq_self {c : Char} (h : c.toNat < 65) : downChar c = c := by
  unfold downChar
  rw [if_neg]
  omega

theorem isJsSpace_false {c : Char} (h : 33 ≤ c.toNat) : isJsSpace c = false := by
  simp only [isJsSpace, Bool.or_eq_false_iff, beq_eq_false_iff_ne, ne_eq]
  omega

theorem takeWhile_append_all {p : Char → Bool} {l r : List Char}
    (h : ∀ c ∈ l, p c = true) : (l ++ r).takeWhile p = l ++ r.takeWhile p := by
  induction l with
  | nil => simp
  | cons a t ih =>
    have ha := h a (by simp)
    simp only [List.cons_append, List.takeWhile_cons, ha, if_true]
    rw [ih fun c hc => h c (by simp [hc])]

theorem dropWhile_append_all {p : Char → Bool} {l r : List Char}
    (h : ∀ c ∈ l, p c = true) : (l ++ r).dropWhile p = r.dropWhile p := by
  induction l with
  | nil => simp
  | cons a t ih =>
    have ha := h a (by simp)
    simp only [List.cons_append, List.dropWhile_cons, ha, if_true]
    exact ih fun c hc => h c (by simp [hc])

theorem takeWhile_cons_false {p : Char → Bool} {a : Char} {t : List Char}
    (h : p a = false) : (a :: t).takeWhile p = [] := by
  simp [List.takeWhile_cons, h]

theorem dropWhile_cons_false {p : Char → Bool} {a : Char} {t : List Char}
    (h : p a = false) : (a :: t).dropWhile p = a :: t := by
  simp [List.dropWhile_cons, h]

theorem map_id_of_mem {f : Char → Char} {l : List Char} (h : ∀ c ∈ l, f c = c) :
    l.map f = l := by
  induction l with
  | nil => rfl
  | cons a t ih =>
    simp only [List.map_cons, h a (by simp), ih fun c hc => h c (by simp [hc])]

theorem string_mk_data (s : String) : String.mk s.data = s := rfl

theorem jsToUpper_eq_self {s : String} (h : ∀ c ∈ s.data, c.toNat < 97) :
    jsToUpper s = s := by
  unfold jsToUpper
  rw [map_id_of_mem fun c hc => upChar_eq_self (h c hc)]

theorem jsToLower_eq_self {s : String} (h : ∀ c ∈ s.data, c.toNat < 65) :
    jsToLower s = s := by
  unfold jsToLower
  rw [map_id_of_mem fun c hc => downChar_eq_self (h c hc)]

theorem jsTrim_eq_self {s : String} (h : ∀ c ∈ s.data, isJsSpace c = false) :
    jsTrim s = s := by
  unfold jsTrim
  have h1 : s.data.dropWhile isJsSpace = s.data := by
    cases hd : s.data with
    | nil => rfl
    | cons a t => exact dropWhile_cons_false (h a (by rw [hd]; simp))
  rw [h1]
  have h2 : s.data.reverse.dropWhile isJsSpace = s.data.reverse := by
    cases hd : s.data.reverse with
    | nil => rfl
    | cons a t =>
      refine dropWhile_cons_false (h a ?_)
      have : a ∈ s.data.reverse := by rw [hd]; simp
      simpa using this
  rw [h2, List.reverse_reverse]

theorem firstHit_none {f : α → Option β} {l : List α} (h : ∀ a ∈ l, f a = none) :
    firstHit f l = none := by
  induction l with
  | nil => rfl
  | cons a t ih =>
    simp only [firstHit, h a (by simp)]
    exact ih fun x hx => h x (by simp [hx])

theorem listIndexOf_none {x : String} : ∀ {l : List String} {i : Nat},
    (∀ a ∈ l, (a == x) = false) → listIndexOf x l i = none := by
  intro l
  induction l with
  | nil => intro i _; rfl
  | cons a t ih =>
    intro i h
    simp only [listIndexOf, h a (by simp), Bool.false_eq_true, if_false]
    exact ih fun y hy => h y (by simp [hy])

theorem digitsToNat_cons (a : Char) (t : List Char) :
    digitsToNat (a :: t) = List.foldl (fun acc c => acc * 10 + digVal c) (digVal a) t := by
  simp [digitsToNat]

theorem natDigitsAux_congr : ∀ (n f g : Nat), n < f → n < g →
    natDigitsAux f n = natDigitsAux g n := by
  intro n
  induction n using Nat.strong_induction_on with
  | _ n ih =>
    intro f g hf hg
    cases f with
    | zero => omega
    | succ f' =>
      cases g with
      | zero => omega
      | succ g' =>
        by_cases h10 : n < 10
        · simp [natDigitsAux, h10]
        · have hdiv : n / 10 < n := Nat.div_lt_self (by omega) (by omega)
          simp only [natDigitsAux, h10, if_false]
          rw [ih (n / 10) hdiv f' g' (by omega) (by omega)]

theorem natRepr_data_one {n : Nat} (h : n < 10) : (natRepr n).data = [digChar n] := by
  simp [natRepr, natDigitsAux, h]

theorem natRepr_data_two {n : Nat} (h1 : 10 ≤ n) (h2 : n ≤ 99) :
    (natRepr n).data = [digChar (n / 10), digChar n] := by
  have hdiv : n / 10 < n := Nat.div_lt_self (by omega) (by omega)
  simp only [natRepr, natDigitsAux, show ¬n < 10 by omega, if_false]
  rw [natDigitsAux_congr (n / 10) n (n / 10 + 1) hdiv (by omega)]
  simp [natDigitsAux, show n / 10 < 10 by omega]

theorem natRepr_data_four {n : Nat} (h1 : 1000 ≤ n) (h2 : n ≤ 9999) :
    (natRepr n).data = [digChar (n / 1000), digChar (n / 100), digChar (n / 10), digChar n] := by
  have d1 : n / 10 < n := Nat.div_lt_self (by omega) (by omega)
  have d2 : n / 100 < n / 10 := by omega
  have d3 : n / 1000 < n / 100 := by omega
  have b1 : 100 ≤ n / 10 ∧ n / 10 ≤ 999 := by omega
  have b2 : 10 ≤ n / 100 ∧ n / 100 ≤ 99 := by omega
  have b3 : 1 ≤ n / 1000 ∧ n / 1000 ≤ 9 := by omega
  simp only [natRepr, natDigitsAux, show ¬n < 10 by omega, if_false]
  rw [natDigitsAux_congr (n / 10) n (n / 10 + 1) d1 (by omega)]
  simp only [natDigitsAux, show ¬n / 10 < 10 by omega, if_false]
  rw [natDigitsAux_congr (n / 10 / 10) (n / 10) (n / 10 / 10 + 1) (by omega) (by omega)]
  have e1 : n / 10 / 10 = n / 100 := by omega
  rw [e1]
  simp only [natDigitsAux, show ¬n / 100 < 10 by omega, if_false]
  rw [natDigitsAux_congr (n / 100 / 10) (n / 100) (n / 100 / 10 + 1) (by omega) (by omega)]
  have e2 : n / 100 / 10 = n / 1000 := by omega
  rw [e2]
  simp [natDigitsAux, show n / 1000 < 10 by omega]

theorem pad2_data {n : Nat} (h : n ≤ 99) :
    (pad2 n).data = [digChar (n / 10), digChar n] := by
  by_cases h10 : n < 10
  · have : n / 10 = 0 := by omega
    simp only [pad2, h10, if_true]
    rw [this]
    have : ("0" ++ natRepr n).data = '0' :: (natRepr n).data := rfl
    rw [this, natRepr_data_one h10]
    rfl
  · simp only [pad2, h10, if_false]
    exact natRepr_data_two (by omega) h

theorem isDig_digChar (n : Nat) : isDig (digChar n) = true := by
  unfold digChar
  have h : n % 10 < 10 := Nat.mod_lt _ (by omega)
  revert h
  generalize n % 10 = k
  intro h
  interval_cases k <;> decide

theorem digVal_digChar (n : Nat) : digVal (digChar n) = n % 10 := by
  unfold digChar
  have h : n % 10 < 10 := Nat.mod_lt _ (by omega)
  revert h
  generalize n % 10 = k
  intro h
  interval_cases k <;> decide

end JsModel

/-! ## Evaluation lemmas for ISO-shaped strings -/

namespace DateUtility

theorem digits8 {y1 y2 y3 y4 m1 m2 d1 d2 : Char}
    (hAll : ([y1, y2, y3, y4, m1, m2, d1, d2].all isDig) = true) :
    isDig y1 = true ∧ isDig y2 = true ∧ isDig y3 = true ∧ isDig y4 = true ∧
      isDig m1 = true ∧ isDig m2 = true ∧ isDig d1 = true ∧ isDig d2 = true := by
  simpa using hAll

theorem mkISO_data (y1 y2 y3 y4 m1 m2 d1 d2 : Char) :
    (mkISO y1 y2 y3 y4 m1 m2 d1 d2).data = [y1, y2, y3, y4, '-', m1, m2, '-', d1, d2] := rfl

theorem mkISO_ne_empty (y1 y2 y3 y4 m1 m2 d1 d2 : Char) :
    mkISO y1 y2 y3 y4 m1 m2 d1 d2 ≠ "" := by
  intro h
  have := congrArg String.data h
  simp [mkISO_data] at this

theorem mkISO_chars {y1 y2 y3 y4 m1 m2 d1 d2 : Char}
    (hAll : ([y1, y2, y3, y4, m1, m2, d1, d2].all isDig) = true) :
    ∀ c ∈ (mkISO y1 y2 y3 y4 m1 m2 d1 d2).data, 45 ≤ c.toNat ∧ c.toNat ≤ 57 := by
  obtain ⟨h1, h2, h3, h4, h5, h6, h7, h8⟩ := digits8 hAll
  intro c hc
  rw [mkISO_data] at hc
  simp only [List.mem_cons, List.not_mem_nil, or_false] at hc
  rcases hc with rfl | rfl | rfl | rfl | rfl | rfl | rfl | rfl | rfl | rfl
  · exact ⟨by have := (isDig_toNat h1).1; omega, (isDig_toNat h1).2⟩
  · exact ⟨by have := (isDig_toNat h2).1; omega, (isDig_toNat h2).2⟩
  · exact ⟨by have := (isDig_toNat h3).1; omega, (isDig_toNat h3).2⟩
  · exact ⟨by have := (isDig_toNat h4).1; omega, (isDig_toNat h4).2⟩
  · exact ⟨by decide, by decide⟩
  · exact ⟨by have := (isDig_toNat h5).1; omega, (isDig_toNat h5).2⟩
  · exact ⟨by have := (isDig_toNat h6).1; omega, (isDig_toNat h6).2⟩
  · exact ⟨by decide, by decide⟩
  · exact ⟨by have := (isDig_toNat h7).1; omega, (isDig_toNat h7).2⟩
  · exact ⟨by have := (isDig_toNat h8).1; omega, (isDig_toNat h8).2⟩

theorem matchesISOFormat_mkISO {y1 y2 y3 y4 m1 m2 d1 d2 : Char}
    (hAll : ([y1, y2, y3, y4, m1, m2, d1, d2].all isDig) = true) :
    matchesISOFormat (mkISO y1 y2 y3 y4 m1 m2 d1 d2) = true := by
  obtain ⟨h1, h2, h3, h4, h5, h6, h7, h8⟩ := digits8 hAll
  simp [matchesISOFormat, mkISO, h1, h2, h3, h4, h5, h6, h7, h8]

theorem euroParse_mkISO {y1 y2 y3 y4 m1 m2 d1 d2 : Char}
    (hAll : ([y1, y2, y3, y4, m1, m2, d1, d2].all isDig) = true) :
    euroParse (mkISO y1 y2 y3 y4 m1 m2 d1 d2).data = none := by
  obtain ⟨h1, h2, h3, h4, _, _, _, _⟩ := digits8 hAll
  rw [mkISO_data]
  unfold euroParse
  have hdash : isDig '-' = false := by decide
  simp [List.takeWhile_cons, h1, h2, h3, h4, hdash]

theorem jsNewDate_mkISO {y1 y2 y3 y4 m1 m2 d1 d2 : Char} {Y M D : Nat}
    (hAll : ([y1, y2, y3, y4, m1, m2, d1, d2].all isDig) = true)
    (hc : isoComponents (mkISO y1 y2 y3 y4 m1 m2 d1 d2) = (Y, M, D))
    (hM : 1 ≤ M ∧ M ≤ 12) (hD : 1 ≤ D ∧ D ≤ daysInMonth Y M) :
    jsNewDate (mkISO y1 y2 y3 y4 m1 m2 d1 d2) = some ⟨Y, M, D⟩ := by
  unfold jsNewDate
  have htake : (mkISO y1 y2 y3 y4 m1 m2 d1 d2).data.take 10 =
      (mkISO y1 y2 y3 y4 m1 m2 d1 d2).data := rfl
  have hdrop : (mkISO y1 y2 y3 y4 m1 m2 d1 d2).data.drop 10 = [] := rfl
  rw [htake, hdrop, string_mk_data]
  simp only [matchesISOFormat_mkISO hAll, hc, if_true]
  simp [hM.1, hM.2, hD.1, hD.2]

theorem jsNewDate_mkISO_T {y1 y2 y3 y4 m1 m2 d1 d2 : Char} {Y M D : Nat}
    (hAll : ([y1, y2, y3, y4, m1, m2, d1, d2].all isDig) = true)
    (hc : isoComponents (mkISO y1 y2 y3 y4 m1 m2 d1 d2) = (Y, M, D))
    (hM : 1 ≤ M ∧ M ≤ 12) (hD : 1 ≤ D ∧ D ≤ daysInMonth Y M) :
    jsNewDate (mkISO y1 y2 y3 y4 m1 m2 d1 d2 ++ "T00:00:00") = some ⟨Y, M, D⟩ := by
  unfold jsNewDate
  have htake : (mkISO y1 y2 y3 y4 m1 m2 d1 d2 ++ "T00:00:00").data.take 10 =
      (mkISO y1 y2 y3 y4 m1 m2 d1 d2).data := rfl
  have hdrop : (mkISO y1 y2 y3 y4 m1 m2 d1 d2 ++ "T00:00:00").data.drop 10 =
      ['T', '0', '0', ':', '0', '0', ':', '0', '0'] := rfl
  rw [htake, hdrop, string_mk_data]
  simp only [matchesISOFormat_mkISO hAll, hc, if_true]
  simp [hM.1, hM.2, hD.1, hD.2]

theorem parseDateSafe_mkISO {y1 y2 y3 y4 m1 m2 d1 d2 : Char} {Y M D : Nat} (now : Nat)
    (hAll : ([y1, y2, y3, y4, m1, m2, d1, d2].all isDig) = true)
    (hc : isoComponents (mkISO y1 y2 y3 y4 m1 m2 d1 d2) = (Y, M, D))
    (hM : 1 ≤ M ∧ M ≤ 12) (hD : 1 ≤ D ∧ D ≤ daysInMonth Y M) :
    parseDateSafe (mkISO y1 y2 y3 y4 m1 m2 d1 d2) now = some ⟨Y, M, D⟩ := by
  unfold parseDateSafe
  rw [if_neg (mkISO_ne_empty y1 y2 y3 y4 m1 m2 d1 d2), euroParse_mkISO hAll]
  simp only [Option.isSome_none, Bool.false_eq_true, if_false,
    matchesISOFormat_mkISO hAll, if_true]
  exact jsNewDate_mkISO_T hAll hc hM hD

theorem mkISO_contains_dash {y1 y2 y3 y4 m1 m2 d1 d2 : Char}
    (hAll : ([y1, y2, y3, y4, m1, m2, d1, d2].all isDig) = true) :
    (mkISO y1 y2 y3 y4 m1 m2 d1 d2).data.contains '-' = true := by
  obtain ⟨h1, h2, h3, h4, _, _, _, _⟩ := digits8 hAll
  rw [mkISO_data]
  simp only [List.contains_cons]
  have hdash : isDig '-' = false := by decide
  have e1 := (beq_false_of_isDig h1 hdash).2
  have e2 := (beq_false_of_isDig h2 hdash).2
  have e3 := (beq_false_of_isDig h3 hdash).2
  have e4 := (beq_false_of_isDig h4 hdash).2
  simp [e1, e2, e3, e4]

theorem mkISO_toLower {y1 y2 y3 y4 m1 m2 d1 d2 : Char}
    (hAll : ([y1, y2, y3, y4, m1, m2, d1, d2].all isDig) = true) :
    jsToLower (mkISO y1 y2 y3 y4 m1 m2 d1 d2) = mkISO y1 y2 y3 y4 m1 m2 d1 d2 :=
  jsToLower_eq_self fun c hc => by have := mkISO_chars hAll c hc; omega

theorem mkISO_trim {y1 y2 y3 y4 m1 m2 d1 d2 : Char}
    (hAll : ([y1, y2, y3, y4, m1, m2, d1, d2].all isDig) = true) :
    jsTrim (mkISO y1 y2 y3 y4 m1 m2 d1 d2) = mkISO y1 y2 y3 y4 m1 m2 d1 d2 :=
  jsTrim_eq_self fun c hc => isJsSpace_false (by have := mkISO_chars hAll c hc; omega)

theorem dateToGrid_mkISO {y1 y2 y3 y4 m1 m2 d1 d2 : Char} {Y M D : Nat}
    (hAll : ([y1, y2, y3, y4, m1, m2, d1, d2].all isDig) = true)
    (hc : isoComponents (mkISO y1 y2 y3 y4 m1 m2 d1 d2) = (Y, M, D))
    (hM : 1 ≤ M ∧ M ≤ 12) (hD : 1 ≤ D ∧ D ≤ daysInMonth Y M) :
    dateToGrid (mkISO y1 y2 y3 y4 m1 m2 d1 d2) = monthBaseColumn M + positionWithinMonth D := by
  unfold dateToGrid
  rw [jsNewDate_mkISO hAll hc hM hD]

theorem getGridPosition_mkISO {y1 y2 y3 y4 m1 m2 d1 d2 : Char} (now : Nat)
    (hAll : ([y1, y2, y3, y4, m1, m2, d1, d2].all isDig) = true) :
    getGridPosition (mkISO y1 y2 y3 y4 m1 m2 d1 d2) now =
      dateToGrid (mkISO y1 y2 y3 y4 m1 m2 d1 d2) := by
  unfold getGridPosition
  rw [if_neg (mkISO_ne_empty y1 y2 y3 y4 m1 m2 d1 d2)]
  simp [matchesISOFormat_mkISO hAll]

theorem isStartOfMonth_mkISO {y1 y2 y3 y4 m1 m2 d1 d2 : Char} {Y M D : Nat} (now : Nat)
    (hAll : ([y1, y2, y3, y4, m1, m2, d1, d2].all isDig) = true)
    (hc : isoComponents (mkISO y1 y2 y3 y4 m1 m2 d1 d2) = (Y, M, D))
    (hM : 1 ≤ M ∧ M ≤ 12) (hD : 1 ≤ D ∧ D ≤ daysInMonth Y M) :
    isStartOfMonth (mkISO y1 y2 y3 y4 m1 m2 d1 d2) now = decide (1 ≤ D ∧ D ≤ 3) := by
  unfold isStartOfMonth
  rw [parseDateSafe_mkISO now hAll hc hM hD]

theorem isEndOfPreviousMonth_mkISO {y1 y2 y3 y4 m1 m2 d1 d2 : Char} {Y M D : Nat} (now : Nat)
    (hAll : ([y1, y2, y3, y4, m1, m2, d1, d2].all isDig) = true)
    (hc : isoComponents (mkISO y1 y2 y3 y4 m1 m2 d1 d2) = (Y, M, D))
    (hM : 1 ≤ M ∧ M ≤ 12) (hD : 1 ≤ D ∧ D ≤ daysInMonth Y M) :
    isEndOfPreviousMonth (mkISO y1 y2 y3 y4 m1 m2 d1 d2) now = decide (1 ≤ D ∧ D ≤ 3) := by
  unfold isEndOfPreviousMonth
  rw [parseDateSafe_mkISO now hAll hc hM hD]

theorem isEndOfMonth_mkISO {y1 y2 y3 y4 m1 m2 d1 d2 : Char} {Y M D : Nat} (now : Nat)
    (hAll : ([y1, y2, y3, y4, m1, m2, d1, d2].all isDig) = true)
    (hc : isoComponents (mkISO y1 y2 y3 y4 m1 m2 d1 d2) = (Y, M, D))
    (hM : 1 ≤ M ∧ M ≤ 12) (hD : 1 ≤ D ∧ D ≤ daysInMonth Y M) :
    isEndOfMonth (mkISO y1 y2 y3 y4 m1 m2 d1 d2) now = decide (D ≥ 26) := by
  unfold isEndOfMonth
  rw [parseDateSafe_mkISO now hAll hc hM hD]

theorem daysInMonth_ge (y m : Nat) : 28 ≤ daysInMonth y m := by
  unfold daysInMonth
  split_ifs <;> omega

theorem daysInMonth_le (y m : Nat) : daysInMonth y m ≤ 31 := by
  unfold daysInMonth
  split_ifs <;> omega

theorem getPreviousMonthName_mkISO {y1 y2 y3 y4 m1 m2 d1 d2 : Char} {Y M D : Nat} (now : Nat)
    (hAll : ([y1, y2, y3, y4, m1, m2, d1, d2].all isDig) = true)
    (hc : isoComponents (mkISO y1 y2 y3 y4 m1 m2 d1 d2) = (Y, M, D))
    (hM : 1 ≤ M ∧ M ≤ 12) (hD : 1 ≤ D ∧ D ≤ daysInMonth Y M) (hD3 : D ≤ 3) :
    getPreviousMonthName (mkISO y1 y2 y3 y4 m1 m2 d1 d2) now =
      getMonthName (if M = 1 then 12 else M - 1) := by
  unfold getPreviousMonthName
  rw [parseDateSafe_mkISO now hAll hc hM hD]
  have h28 := daysInMonth_ge (if M = 1 then Y - 1 else Y) (if M = 1 then 12 else M - 1)
  simp only
  rw [if_neg (by omega)]

theorem monthBaseColumn_eval (m : Nat) (h1 : 1 ≤ m) (h2 : m ≤ 12) :
    monthBaseColumn m = (m - 1) * 10 + 1 := by
  interval_cases m <;> rfl

theorem getGridPosition_monthName (m now : Nat) (h1 : 1 ≤ m) (h2 : m ≤ 12) :
    getGridPosition (getMonthName m) now = monthBaseColumn m := by
  interval_cases m <;> rfl

end DateUtility

namespace RoadmapGenerator

open DateUtility

theorem convertStoryDateToISO_mkISO {y1 y2 y3 y4 m1 m2 d1 d2 : Char} (ry now : Nat)
    (hAll : ([y1, y2, y3, y4, m1, m2, d1, d2].all isDig) = true) :
    convertStoryDateToISO (mkISO y1 y2 y3 y4 m1 m2 d1 d2) ry now =
      some (mkISO y1 y2 y3 y4 m1 m2 d1 d2) := by
  unfold convertStoryDateToISO
  rw [if_neg (mkISO_ne_empty y1 y2 y3 y4 m1 m2 d1 d2), mkISO_toLower hAll, mkISO_trim hAll]
  simp [matchesISOFormat_mkISO hAll]

end RoadmapGenerator

/-! ## Claim theorems: C1 and C2 -/

open DateUtility ConfigUtility RoadmapGenerator

/-- **C1.** For every story start date that normalizes (here: every valid ISO
start date, quantified through its characters) and lies within the roadmap
year, with day-of-month `D`: days 1–3 resolve to the month's base column;
days 4–27 resolve to the base column plus the sub-month bucket offset
(3 for 4–10, 6 for 11–20, 9 for 21–25) minus the 2-column story-start
correction; days 28–31 resolve to the next month's base column (December
wrapping to January).  In particular `2025-01-15` with roadmap year 2025
resolves to column 5 (January base 1 + 6 − 2). -/
theorem C1_start_bucketing (y1 y2 y3 y4 m1 m2 d1 d2 : Char) (ry now M D : Nat)
    (hAll : ([y1, y2, y3, y4, m1, m2, d1, d2].all isDig) = true)
    (hc : isoComponents (mkISO y1 y2 y3 y4 m1 m2 d1 d2) = (ry, M, D))
    (hM : 1 ≤ M ∧ M ≤ 12) (hD : 1 ≤ D ∧ D ≤ daysInMonth ry M) :
    (D ≤ 3 →
      (generateStoryStartPair { startDate := some (mkISO y1 y2 y3 y4 m1 m2 d1 d2) } ry now).1 =
        monthBaseColumn M) ∧
    (4 ≤ D → D ≤ 27 →
      (generateStoryStartPair { startDate := some (mkISO y1 y2 y3 y4 m1 m2 d1 d2) } ry now).1 =
        monthBaseColumn M + positionWithinMonth D - 2 ∧
      (D ≤ 10 → positionWithinMonth D = 3) ∧
      (11 ≤ D → D ≤ 20 → positionWithinMonth D = 6) ∧
      (21 ≤ D → D ≤ 25 → positionWithinMonth D = 9)) ∧
    (28 ≤ D →
      (generateStoryStartPair { startDate := some (mkISO y1 y2 y3 y4 m1 m2 d1 d2) } ry now).1 =
        monthBaseColumn (if M = 12 then 1 else M + 1)) ∧
    (generateStoryStartPair { startDate := some "2025-01-15" } 2025 now).1 = 5 := by
  have hne := mkISO_ne_empty y1 y2 y3 y4 m1 m2 d1 d2
  have hkey : (generateStoryStartPair
      { startDate := some (mkISO y1 y2 y3 y4 m1 m2 d1 d2) } ry now).1 =
      (if 1 ≤ D ∧ D ≤ 3 then monthBaseColumn M
       else if D ≥ 28 then
         getMonthGridPosition (getMonthName (if M = 12 then 1 else M + 1))
       else if 4 ≤ D ∧ D ≤ 27 then monthBaseColumn M + positionWithinMonth D - 2
       else monthBaseColumn M + positionWithinMonth D) := by
    unfold generateStoryStartPair
    simp only [strOpt, if_neg hne, euroParse_mkISO hAll, Option.isSome_none,
      Bool.false_eq_true, if_false, jsNewDate_mkISO hAll hc hM hD,
      Nat.lt_irrefl, isStartOfMonth_mkISO now hAll hc hM hD,
      isEndOfPreviousMonth_mkISO now hAll hc hM hD,
      dateToGrid_mkISO hAll hc hM hD]
    by_cases h3 : 1 ≤ D ∧ D ≤ 3
    · simp [h3, monthBaseColumn]
    · by_cases h28 : D ≥ 28
      · simp [h3, h28, show ¬(4 ≤ D ∧ D ≤ 27) by omega]
      · by_cases h427 : 4 ≤ D ∧ D ≤ 27
        · simp [h3, h28, h427]
        · omega
  refine ⟨?_, ?_, ?_, ?_⟩
  · intro h3
    rw [hkey, if_pos ⟨hD.1, h3⟩]
  · intro h4 h27
    refine ⟨?_, ?_, ?_, ?_⟩
    · rw [hkey, if_neg (by omega), if_neg (by omega), if_pos ⟨h4, h27⟩]
    · intro h10
      unfold positionWithinMonth
      split_ifs <;> omega
    · intro h11 h20
      unfold positionWithinMonth
      split_ifs <;> omega
    · intro h21 h25
      unfold positionWithinMonth
      split_ifs <;> omega
  · intro h28
    rw [hkey, if_neg (by omega), if_pos (by omega)]
    rfl
  · rfl

/-- Witness for C1: the start date 2025-01-15 in roadmap year 2025 lands at
January base + bucket 6 − 2 = 5. -/
theorem C1_start_bucketing_witness :
    (generateStoryStartPair { startDate := some (mkISO '2' '0' '2' '5' '0' '1' '1' '5') }
      2025 0).1 = monthBaseColumn 1 + positionWithinMonth 15 - 2 :=
  ((C1_start_bucketing '2' '0' '2' '5' '0' '1' '1' '5' 2025 0 1 15 (by decide) (by decide)
    (by decide) (by decide)).2.1 (by decide) (by decide)).1

/-- **C2.** For every story end value: a day-level end date with day ≥ 26
resolves to its own month's base column + 10; one with day ≤ 3 resolves to
the previous month's base column + 10 (January wrapping back to December);
and a bare end month token resolves to that month's base column + 10. -/
theorem C2_end_resolution (y1 y2 y3 y4 m1 m2 d1 d2 : Char) (sg ry now Y M D : Nat)
    (hAll : ([y1, y2, y3, y4, m1, m2, d1, d2].all isDig) = true)
    (hc : isoComponents (mkISO y1 y2 y3 y4 m1 m2 d1 d2) = (Y, M, D))
    (hM : 1 ≤ M ∧ M ≤ 12) (hD : 1 ≤ D ∧ D ≤ daysInMonth Y M) :
    (26 ≤ D →
      generateStoryEndGrid (some (mkISO y1 y2 y3 y4 m1 m2 d1 d2)) sg ry now =
        monthBaseColumn M + 10) ∧
    (D ≤ 3 →
      generateStoryEndGrid (some (mkISO y1 y2 y3 y4 m1 m2 d1 d2)) sg ry now =
        monthBaseColumn (if M = 1 then 12 else M - 1) + 10) ∧
    (∀ i, i < 12 →
      generateStoryEndGrid (some (monthNames.getD i "")) sg ry now =
        getMonthGridPosition (monthNames.getD i "") + 10) := by
  refine ⟨?_, ?_, ?_⟩
  · intro h26
    unfold generateStoryEndGrid
    simp only [mkISO_contains_dash hAll, Bool.true_or,
      isEndOfMonth_mkISO now hAll hc hM hD, Bool.true_and,
      decide_eq_true (show D ≥ 26 by omega), Bool.not_true, Bool.false_eq_true, if_false,
      if_true, parseDateSafe_mkISO now hAll hc hM hD]
    rw [getGridPosition_monthName M now hM.1 hM.2]
  · intro h3
    unfold generateStoryEndGrid
    simp only [mkISO_contains_dash hAll, Bool.true_or,
      isEndOfMonth_mkISO now hAll hc hM hD,
      isEndOfPreviousMonth_mkISO now hAll hc hM hD, Bool.true_and,
      decide_eq_false (show ¬D ≥ 26 by omega),
      decide_eq_true (show 1 ≤ D ∧ D ≤ 3 by omega),
      Bool.not_true, Bool.false_eq_true, if_false, if_true,
      getPreviousMonthName_mkISO now hAll hc hM hD h3]
    rw [getGridPosition_monthName (if M = 1 then 12 else M - 1) now
      (by split_ifs <;> omega) (by split_ifs <;> omega)]
  · intro i hi
    interval_cases i <;> rfl

/-- Witness for C2: end date 2025-03-31 resolves to March's base + 10, end
date 2025-02-02 resolves to January's base + 10, and the bare month token
`AUG` resolves to August's base + 10. -/
theorem C2_end_resolution_witness :
    generateStoryEndGrid (some (mkISO '2' '0' '2' '5' '0' '3' '3' '1')) 1 2025 0 =
      monthBaseColumn 3 + 10 ∧
    generateStoryEndGrid (some (mkISO '2' '0' '2' '5' '0' '2' '0' '2')) 1 2025 0 =
      monthBaseColumn (if 2 = 1 then 12 else 2 - 1) + 10 ∧
    generateStoryEndGrid (some (monthNames.getD 7 "")) 1 2025 0 =
      getMonthGridPosition (monthNames.getD 7 "") + 10 :=
  ⟨(C2_end_resolution '2' '0' '2' '5' '0' '3' '3' '1' 1 2025 0 2025 3 31 (by decide) (by decide)
      (by decide) (by decide)).1 (by decide),
   (C2_end_resolution '2' '0' '2' '5' '0' '2' '0' '2' 1 2025 0 2025 2 2 (by decide) (by decide)
      (by decide) (by decide)).2.1 (by decide),
   (C2_end_resolution '2' '0' '2' '5' '0' '1' '1' '5' 1 2025 0 2025 1 15 (by decide) (by decide)
      (by decide) (by decide)).2.2 7 (by decide)⟩

namespace JsModel

theorem parseIntJS_digits {l : List Char} (hne : l ≠ []) (h : ∀ c ∈ l, isDig c = true) :
    parseIntJS l = some (digitsToNat l) := by
  obtain ⟨a, t, rfl⟩ : ∃ a t, l = a :: t := by
    cases l with
    | nil => exact absurd rfl hne
    | cons a t => exact ⟨a, t, rfl⟩
  have ha := h a (by simp)
  have hsp : isJsSpace a = false := isJsSpace_false (by have := (isDig_toNat ha).1; omega)
  have hplus : (a == '+') = false := (beq_false_of_isDig ha (by decide)).1
  unfold parseIntJS
  simp only [dropWhile_cons_false hsp, hplus, Bool.false_eq_true, if_false]
  rw [List.takeWhile_eq_self_iff.mpr h]
  simp

theorem digitsToNat_four (a b c d : Char) :
    digitsToNat [a, b, c, d] =
      ((digVal a * 10 + digVal b) * 10 + digVal c) * 10 + digVal d := by
  simp [digitsToNat]

theorem digitsToNat_two (a b : Char) : digitsToNat [a, b] = digVal a * 10 + digVal b := by
  simp [digitsToNat]

theorem digitsToNat_one (a : Char) : digitsToNat [a] = digVal a := by
  simp [digitsToNat]

end JsModel

namespace DateUtility

theorem splitChar_mkISO {y1 y2 y3 y4 m1 m2 d1 d2 : Char}
    (hAll : ([y1, y2, y3, y4, m1, m2, d1, d2].all isDig) = true) :
    splitChar '-' (mkISO y1 y2 y3 y4 m1 m2 d1 d2).data =
      [[y1, y2, y3, y4], [m1, m2], [d1, d2]] := by
  obtain ⟨h1, h2, h3, h4, h5, h6, h7, h8⟩ := digits8 hAll
  have hdash : isDig '-' = false := by decide
  have e1 := (beq_false_of_isDig h1 hdash).1
  have e2 := (beq_false_of_isDig h2 hdash).1
  have e3 := (beq_false_of_isDig h3 hdash).1
  have e4 := (beq_false_of_isDig h4 hdash).1
  have e5 := (beq_false_of_isDig h5 hdash).1
  have e6 := (beq_false_of_isDig h6 hdash).1
  have e7 := (beq_false_of_isDig h7 hdash).1
  have e8 := (beq_false_of_isDig h8 hdash).1
  rw [mkISO_data]
  simp [splitChar, e1, e2, e3, e4, e5, e6, e7, e8]

theorem isoComponents_eq {y1 y2 y3 y4 m1 m2 d1 d2 : Char} {Y M D : Nat}
    (hc : isoComponents (mkISO y1 y2 y3 y4 m1 m2 d1 d2) = (Y, M, D)) :
    ((digVal y1 * 10 + digVal y2) * 10 + digVal y3) * 10 + digVal y4 = Y ∧
      digVal m1 * 10 + digVal m2 = M ∧ digVal d1 * 10 + digVal d2 = D := by
  have : isoComponents (mkISO y1 y2 y3 y4 m1 m2 d1 d2) =
      (((digVal y1 * 10 + digVal y2) * 10 + digVal y3) * 10 + digVal y4,
        digVal m1 * 10 + digVal m2, digVal d1 * 10 + digVal d2) := rfl
  rw [this] at hc
  rw [Prod.mk.injEq, Prod.mk.injEq] at hc
  exact ⟨hc.1, hc.2.1, hc.2.2⟩

end DateUtility

/-! ## Claim theorem: C3 -/

/-- **C3.** A story whose end date resolves to a year strictly greater than
the roadmap year (or, string-wise, past the search range's end date) sets
the next-year continuation flag; whenever that flag is set the visual end
column is clamped to December's base column + 10 = 121; and the actual end
month and year shown by the continuation indicator are recovered from the
original, unclamped end date. -/
theorem C3_next_year_continuation (y1 y2 y3 y4 m1 m2 d1 d2 : Char) (ry now Y M D : Nat)
    (story : Story) (sr : Option SearchRange)
    (hAll : ([y1, y2, y3, y4, m1, m2, d1, d2].all isDig) = true)
    (hc : isoComponents (mkISO y1 y2 y3 y4 m1 m2 d1 d2) = (Y, M, D))
    (hend : story.endDate = some (mkISO y1 y2 y3 y4 m1 m2 d1 d2)) :
    (0 < ry → ry < Y → storyContinuesNextYear story ry now sr = true) ∧
    (∀ (story2 : Story) (sr2 : Option SearchRange),
      storyContinuesNextYear story2 ry now sr2 = true →
      (generateStorySpan story2 ry now sr2).2 = getGridPosition "DEC" now + 10) ∧
    getGridPosition "DEC" now + 10 = 121 ∧
    (∀ se : String, se ≠ "" → ¬(0 < ry ∧ ry < Y) →
      se < mkISO y1 y2 y3 y4 m1 m2 d1 d2 →
      storyContinuesNextYear story ry now (some { endDate := some se }) = true) ∧
    continuationDisplay (mkISO y1 y2 y3 y4 m1 m2 d1 d2) ry now =
      some (monthNamesDisplay.getD (M - 1) "", Y) := by
  obtain ⟨hY, hM, hD⟩ := isoComponents_eq hc
  obtain ⟨h1, h2, h3, h4, h5, h6, h7, h8⟩ := digits8 hAll
  have hne := mkISO_ne_empty y1 y2 y3 y4 m1 m2 d1 d2
  have hydigs : ∀ c ∈ [y1, y2, y3, y4], isDig c = true := by
    intro c hc'
    simp only [List.mem_cons, List.not_mem_nil, or_false] at hc'
    rcases hc' with rfl | rfl | rfl | rfl <;> assumption
  have hmdigs : ∀ c ∈ [m1, m2], isDig c = true := by
    intro c hc'
    simp only [List.mem_cons, List.not_mem_nil, or_false] at hc'
    rcases hc' with rfl | rfl <;> assumption
  have hYparse : parseIntJS [y1, y2, y3, y4] = some Y := by
    rw [parseIntJS_digits (by simp) hydigs, digitsToNat_four, hY]
  have hMparse : parseIntJS [m1, m2] = some M := by
    rw [parseIntJS_digits (by simp) hmdigs, digitsToNat_two, hM]
  refine ⟨?_, ?_, ?_, ?_, ?_⟩
  · intro hry hgt
    unfold storyContinuesNextYear
    rw [hend]
    simp only [strOpt, if_neg hne, convertStoryDateToISO_mkISO ry now hAll,
      splitChar_mkISO hAll]
    simp only [List.getD, List.get?, Option.getD_some, hYparse]
    simp [hry, hgt]
  · intro story2 sr2 hcont
    unfold generateStorySpan
    rw [hcont]
    simp
  · rfl
  · intro se hse hnot hlt
    unfold storyContinuesNextYear
    rw [hend]
    simp only [strOpt, if_neg hne, if_neg hse, convertStoryDateToISO_mkISO ry now hAll,
      splitChar_mkISO hAll]
    simp only [List.getD, List.get?, Option.getD_some, hYparse]
    have hcond : (decide (0 < ry) && decide (Y > ry)) = false := by
      rcases Nat.eq_zero_or_pos ry with h0 | hpos
      · simp [h0]
      · have : ¬Y > ry := fun hgt => hnot ⟨hpos, hgt⟩
        simp [this]
    rw [hcond]
    simp [hlt]
  · unfold continuationDisplay
    rw [convertStoryDateToISO_mkISO ry now hAll]
    simp only [splitChar_mkISO hAll, List.getD, List.get?, Option.getD_some, hYparse, hMparse]

/-- Witness for C3: end date 2026-02-01 with roadmap year 2025 sets the
continuation flag, clamps the span's end column to December base + 10, and
recovers "Feb 2026" for the continuation display. -/
theorem C3_next_year_continuation_witness :
    let st : Story :=
      { startDate := some "2025-03-15", endDate := some (mkISO '2' '0' '2' '6' '0' '2' '0' '1') }
    storyContinuesNextYear st 2025 0 none = true ∧
    (generateStorySpan st 2025 0 none).2 = getGridPosition "DEC" 0 + 10 ∧
    continuationDisplay (mkISO '2' '0' '2' '6' '0' '2' '0' '1') 2025 0 =
      some (monthNamesDisplay.getD (2 - 1) "", 2026) := by
  intro st
  have h := C3_next_year_continuation '2' '0' '2' '6' '0' '2' '0' '1' 2025 0 2026 2 1
    st none (by decide) (by decide) rfl
  exact ⟨h.1 (by decide) (by decide), h.2.1 st none (h.1 (by decide) (by decide)), h.2.2.2.2⟩

/-! ## Name-matcher failure lemmas (inputs that start with a digit) -/

namespace DateUtility

theorem monthAlternatives_heads :
    monthAlternatives.all (fun n =>
      match n.data with
      | c :: _ => !isDig c
      | [] => false) = true := by decide

theorem monthNames_heads :
    monthNames.all (fun n =>
      match n.data with
      | c :: _ => !isDig c
      | [] => false) = true := by decide

theorem fullMonthNames_heads :
    fullMonthNames.all (fun n =>
      match n.data with
      | c :: _ => !isDig c
      | [] => false) = true := by decide

theorem string_ne_of_heads {n s : String} {c b : Char} {cs bs : List Char}
    (hn : n.data = c :: cs) (hs : s.data = b :: bs)
    (hc : isDig c = false) (hb : isDig b = true) : (n == s) = false := by
  rw [beq_eq_false_iff_ne]
  intro e
  subst e
  rw [hn] at hs
  injection hs with h1 _
  rw [h1, hb] at hc
  exact Bool.noConfusion hc

theorem beq_false_of_all_heads {l : List String}
    (hl : l.all (fun n =>
      match n.data with
      | c :: _ => !isDig c
      | [] => false) = true)
    {s : String} {b : Char} {bs : List Char} (hs : s.data = b :: bs) (hb : isDig b = true) :
    ∀ a ∈ l, (a == s) = false := by
  intro a ha
  have h := List.all_eq_true.mp hl a ha
  cases hnd : a.data with
  | nil => rw [hnd] at h; simp at h
  | cons c cs =>
    rw [hnd] at h
    simp only [Bool.not_eq_true'] at h
    exact string_ne_of_heads hnd hs h hb

theorem matchMonthDay_none_of_digit_head {b : Char} {bs : List Char} (hb : isDig b = true) :
    matchMonthDay (b :: bs) = none := by
  unfold matchMonthDay
  apply firstHit_none
  intro name hmem
  have h := List.all_eq_true.mp monthAlternatives_heads name hmem
  cases hnd : name.data with
  | nil => rw [hnd] at h; simp at h
  | cons c cs =>
    rw [hnd] at h
    simp only [Bool.not_eq_true'] at h
    have hlw : leadsWith (c :: cs) (b :: bs) = false := by
      simp only [leadsWith, (beq_false_of_isDig hb h).2, Bool.false_and]
    simp [hlw]

theorem nameIndex_none_of_digit_head {s : String} {b : Char} {bs : List Char}
    (hs : s.data = b :: bs) (hb : isDig b = true) : nameIndex s = none := by
  unfold nameIndex
  rw [listIndexOf_none (beq_false_of_all_heads monthNames_heads hs hb),
    listIndexOf_none (beq_false_of_all_heads fullMonthNames_heads hs hb)]

theorem matchDayMonth_none_long {l : List Char}
    (h : ¬(1 ≤ (l.takeWhile isDig).length ∧ (l.takeWhile isDig).length ≤ 2)) :
    matchDayMonth l = none := by
  unfold matchDayMonth
  simp [h]

end DateUtility

/-! ## Claim C4: annotation text-box placement -/

/-- Counterexample for C4 as stated: a 5-item annotation (width 62) after a
story ending at column 115 overflows the grid (115 + 2 + 62 > 120) and is
flipped below — but at the story's start column **+ 1** (one-column indent),
not "directly at the story's own start column" (21 here; placement is 22). -/
theorem C4_counterexample :
    exceedsMaxGrid (115 + 2 + calculateTextBoxWidth 5) = true ∧
    (resolveTextBoxPlacement 21 115 115 (calculateTextBoxWidth 5) false false false).2.2 = true ∧
    (resolveTextBoxPlacement 21 115 115 (calculateTextBoxWidth 5) false false false).1 = 21 + 1 ∧
    (resolveTextBoxPlacement 21 115 115 (calculateTextBoxWidth 5) false false false).1 ≠ 21 := by
  decide

/-- **C4 (amended).** The annotation width table gives 16 columns for 1 item
and 62 for 5; when the story's visual end column + 2-column buffer + width
exceeds 120 the annotation is flipped below at the story's start column
**+ 1** (exactly the start column only under the global force-below flag,
which forces the below placement regardless of fit); in either below case,
when start + width still exceeds 120 the start is shifted left by the
overflow, floored at column 1. -/
theorem C4_annotation_placement_amended :
    calculateTextBoxWidth 1 = 16 ∧ calculateTextBoxWidth 5 = 62 ∧
    (∀ ss ve ae w : Nat, exceedsMaxGrid (ve + 2 + w) = true →
      (resolveTextBoxPlacement ss ve ae w false false false).2.2 = true ∧
      (resolveTextBoxPlacement ss ve ae w false false false).1 =
        (if ss + 1 + w > 120 then max 1 (ss + 1 - (ss + 1 + w - 120)) else ss + 1)) ∧
    (∀ (ss ve ae w : Nat) (cny eod : Bool),
      (resolveTextBoxPlacement ss ve ae w cny eod true).2.2 = true ∧
      (resolveTextBoxPlacement ss ve ae w cny eod true).1 =
        (if ss + w > 120 then max 1 (ss - (ss + w - 120)) else ss)) := by
  refine ⟨rfl, rfl, ?_, ?_⟩
  · intro ss ve ae w hover
    unfold resolveTextBoxPlacement
    have hcond : (false || false || exceedsMaxGrid (ve + 2 + w) || false) = true := by
      simp [hover]
    rw [hcond]
    simp only [if_true, Bool.false_eq_true, if_false]
    unfold exceedsMaxGrid getMaxGrid
    by_cases h : ss + 1 + w > 120
    · simp [h]
    · simp [h]
  · intro ss ve ae w cny eod
    unfold resolveTextBoxPlacement
    have hcond : (cny || eod || exceedsMaxGrid (ve + 2 + w) || true) = true := by
      simp
    rw [hcond]
    simp only [if_true]
    unfold exceedsMaxGrid getMaxGrid
    by_cases h : ss + w > 120
    · simp [h]
    · simp [h]

/-- Witness for C4 (amended): the 5-item annotation after a story ending at
column 115 is placed below at column 22 = 21 + 1. -/
theorem C4_annotation_placement_amended_witness :
    (resolveTextBoxPlacement 21 115 115 62 false false false).2.2 = true ∧
    (resolveTextBoxPlacement 21 115 115 62 false false false).1 =
      (if 21 + 1 + 62 > 120 then max 1 (21 + 1 - (21 + 1 + 62 - 120)) else 21 + 1) :=
  C4_annotation_placement_amended.2.2.1 21 115 115 62 (by decide)

/-! ## Claim C5: the endColumn > startColumn invariant -/

/-- Counterexample for C5: an inverted span is passed through as-is.  The
story 2025-03-15 → 2025-01-10 resolves to startColumn 25 and endColumn 4, so
`endColumn > startColumn` fails for this resolved GridSpan. -/
theorem C5_counterexample :
    (generateStorySpan { startDate := some "2025-03-15", endDate := some "2025-01-10" }
      2025 0 none) = (25, 4) ∧
    ¬((generateStorySpan { startDate := some "2025-03-15", endDate := some "2025-01-10" }
      2025 0 none).2 >
      (generateStorySpan { startDate := some "2025-03-15", endDate := some "2025-01-10" }
      2025 0 none).1) := by
  decide

/-- **C5 (amended).** When no end value is supplied (and no search range is
active) the end column defaults to startColumn + 10, so `endColumn >
startColumn` holds; with a supplied end date, inverted or zero-width spans
are passed through unvalidated. -/
theorem C5_default_width_amended (startDate startMonth : Option String) (ry now : Nat) :
    (generateStorySpan { startDate := startDate, startMonth := startMonth } ry now none).2 =
      (generateStorySpan { startDate := startDate, startMonth := startMonth } ry now none).1
        + 10 ∧
    (generateStorySpan { startDate := startDate, startMonth := startMonth } ry now none).1 <
      (generateStorySpan { startDate := startDate, startMonth := startMonth } ry now none).2 := by
  unfold generateStorySpan storyContinuesNextYear storyStartsBeforeRange getEffectiveEndDate
    generateStoryEndGrid
  simp [strOpt]

/-! ## Claim C6: ISO round-trip -/

/-- Counterexample for C6 as stated: the role-aware normalizer
`parseTextValue` does not accept ISO input at all — `"2025-08-01"` comes back
as the absent result `""` in both field roles, not as the date itself. -/
theorem C6_counterexample :
    parseTextValue "2025-08-01" false (some 2025) 0 ≠ "2025-08-01" ∧
    parseTextValue "2025-08-01" true (some 2025) 0 ≠ "2025-08-01" ∧
    parseTextValue "2025-08-01" false (some 2025) 0 = "" ∧
    parseTextValue "2025-08-01" true (some 2025) 0 = "" := by
  decide

namespace DateUtility

theorem mkISO_toUpper {y1 y2 y3 y4 m1 m2 d1 d2 : Char}
    (hAll : ([y1, y2, y3, y4, m1, m2, d1, d2].all isDig) = true) :
    jsToUpper (mkISO y1 y2 y3 y4 m1 m2 d1 d2) = mkISO y1 y2 y3 y4 m1 m2 d1 d2 :=
  jsToUpper_eq_self fun c hc => by have := mkISO_chars hAll c hc; omega

theorem mkISO_takeWhile {y1 y2 y3 y4 m1 m2 d1 d2 : Char}
    (hAll : ([y1, y2, y3, y4, m1, m2, d1, d2].all isDig) = true) :
    (mkISO y1 y2 y3 y4 m1 m2 d1 d2).data.takeWhile isDig = [y1, y2, y3, y4] := by
  obtain ⟨h1, h2, h3, h4, _, _, _, _⟩ := digits8 hAll
  rw [mkISO_data]
  simp [List.takeWhile_cons, h1, h2, h3, h4, show isDig '-' = false by decide]

theorem parseTextValue_mkISO {y1 y2 y3 y4 m1 m2 d1 d2 : Char}
    (hAll : ([y1, y2, y3, y4, m1, m2, d1, d2].all isDig) = true)
    (role : Bool) (ryOpt : Option Nat) (now : Nat) :
    parseTextValue (mkISO y1 y2 y3 y4 m1 m2 d1 d2) role ryOpt now = "" := by
  obtain ⟨h1, _, _, _, _, _, _, _⟩ := digits8 hAll
  unfold parseTextValue
  rw [if_neg (mkISO_ne_empty y1 y2 y3 y4 m1 m2 d1 d2)]
  have hupper : jsTrim (jsToUpper (mkISO y1 y2 y3 y4 m1 m2 d1 d2)) =
      mkISO y1 y2 y3 y4 m1 m2 d1 d2 := by
    rw [mkISO_toUpper hAll, mkISO_trim hAll]
  have hmd : matchMonthDay (mkISO y1 y2 y3 y4 m1 m2 d1 d2).data = none := by
    rw [mkISO_data]
    exact matchMonthDay_none_of_digit_head h1
  have hdm : matchDayMonth (mkISO y1 y2 y3 y4 m1 m2 d1 d2).data = none := by
    apply matchDayMonth_none_long
    rw [mkISO_takeWhile hAll]
    simp
  have hni : nameIndex (mkISO y1 y2 y3 y4 m1 m2 d1 d2) = none :=
    nameIndex_none_of_digit_head (mkISO_data y1 y2 y3 y4 m1 m2 d1 d2) h1
  simp only [hupper, hmd, hdm, hni, euroParse_mkISO hAll]

end DateUtility

/-- **C6 (amended).** Valid ISO dates round-trip through `parseDateSafe`
(and hence through the rendering pipeline), which accepts `YYYY-MM-DD`
verbatim for every roadmap year context; but the role-aware text normalizer
`parseTextValue` rejects ISO input entirely, returning the absent result
`""` for both field roles. -/
theorem C6_iso_roundtrip_amended (y1 y2 y3 y4 m1 m2 d1 d2 : Char) (now Y M D : Nat)
    (hAll : ([y1, y2, y3, y4, m1, m2, d1, d2].all isDig) = true)
    (hc : isoComponents (mkISO y1 y2 y3 y4 m1 m2 d1 d2) = (Y, M, D))
    (hM : 1 ≤ M ∧ M ≤ 12) (hD : 1 ≤ D ∧ D ≤ daysInMonth Y M) :
    parseDateSafe (mkISO y1 y2 y3 y4 m1 m2 d1 d2) now = some ⟨Y, M, D⟩ ∧
    (∀ (role : Bool) (roadmapYear : Option Nat),
      parseTextValue (mkISO y1 y2 y3 y4 m1 m2 d1 d2) role roadmapYear now = "") :=
  ⟨parseDateSafe_mkISO now hAll hc hM hD,
   fun role roadmapYear => parseTextValue_mkISO hAll role roadmapYear now⟩

/-- Witness for C6 (amended): `"2025-08-15"` parses back to 2025-08-15 via
`parseDateSafe`, while `parseTextValue` rejects it. -/
theorem C6_iso_roundtrip_amended_witness :
    parseDateSafe (mkISO '2' '0' '2' '5' '0' '8' '1' '5') 0 = some ⟨2025, 8, 15⟩ ∧
    parseTextValue (mkISO '2' '0' '2' '5' '0' '8' '1' '5') true (some 2025) 0 = "" := by
  have h := C6_iso_roundtrip_amended '2' '0' '2' '5' '0' '8' '1' '5' 0 2025 8 15
    (by decide) (by decide) (by decide) (by decide)
  exact ⟨h.1, h.2 true (some 2025)⟩

namespace DateUtility

theorem jsOrYear_pos {y : Nat} (now : Nat) (hy : 0 < y) : jsOrYear (some y) now = y := by
  simp only [jsOrYear]
  rw [if_neg (by omega)]

theorem parseTextValue_name (s name : String) (mi : Nat) (role : Bool) (y now : Nat)
    (hy : 0 < y)
    (hup : jsTrim (jsToUpper s) = name)
    (hnne : name ≠ "")
    (hmd : matchMonthDay name.data = none)
    (hdm : matchDayMonth name.data = none)
    (hni : nameIndex name = some mi) :
    parseTextValue s role (some y) now =
      natRepr y ++ "-" ++ pad2 (mi + 1) ++ "-" ++
        pad2 (if role then daysInMonth y (mi + 1) else 1) := by
  have hs : s ≠ "" := by
    intro e
    rw [e] at hup
    exact hnne (by simpa using hup.symm)
  unfold parseTextValue
  rw [if_neg hs]
  simp only [hup, hmd, hdm, hni, jsOrYear_pos now hy]

end DateUtility

/-- **C7.** A bare month-name input (3-letter or full, any casing) with no
day number normalizes, in the `start` role, to day 1 of that month in the
roadmap year, and in the `end` role to the last calendar day of that month,
respecting leap years for February; e.g. `AUG` → 2025-08-01 / 2025-08-31. -/
theorem C7_bare_month_defaults (s : String) (i y now : Nat)
    (hi : i < 12) (hy : 0 < y)
    (hname : jsTrim (jsToUpper s) = monthNames.getD i "" ∨
      jsTrim (jsToUpper s) = fullMonthNames.getD i "") :
    (parseTextValue s false (some y) now =
      natRepr y ++ "-" ++ pad2 (i + 1) ++ "-" ++ pad2 1) ∧
    (parseTextValue s true (some y) now =
      natRepr y ++ "-" ++ pad2 (i + 1) ++ "-" ++ pad2 (daysInMonth y (i + 1))) ∧
    parseTextValue "AUG" false (some 2025) 0 = "2025-08-01" ∧
    parseTextValue "AUG" true (some 2025) 0 = "2025-08-31" ∧
    parseTextValue "FEB" true (some 2024) 0 = "2024-02-29" ∧
    parseTextValue "FEB" true (some 2025) 0 = "2025-02-28" := by
  refine ⟨?_, ?_, by decide, by decide, by decide, by decide⟩
  · rcases hname with h | h <;> interval_cases i <;>
      exact parseTextValue_name _ _ _ false y now hy h (by decide) (by decide) (by decide)
        (by decide)
  · rcases hname with h | h <;> interval_cases i <;>
      exact parseTextValue_name _ _ _ true y now hy h (by decide) (by decide) (by decide)
        (by decide)

/-- Witness for C7: the lowercase input `"aug"` resolves through the
month-name grammar in both roles for roadmap year 2025. -/
theorem C7_bare_month_defaults_witness :
    parseTextValue "aug" false (some 2025) 0 = natRepr 2025 ++ "-" ++ pad2 (7 + 1) ++ "-" ++
      pad2 1 ∧
    parseTextValue "aug" true (some 2025) 0 = natRepr 2025 ++ "-" ++ pad2 (7 + 1) ++ "-" ++
      pad2 (daysInMonth 2025 (7 + 1)) := by
  have h := C7_bare_month_defaults "aug" 7 2025 0 (by decide) (by decide) (Or.inl (by decide))
  exact ⟨h.1, h.2.1⟩

namespace DateUtility

theorem euroParse_mkEuro {a b c : List Char} {s1 s2 : Char}
    (ha : ∀ x ∈ a, isDig x = true) (hla : 1 ≤ a.length ∧ a.length ≤ 2)
    (hb : ∀ x ∈ b, isDig x = true) (hlb : 1 ≤ b.length ∧ b.length ≤ 2)
    (hcd : ∀ x ∈ c, isDig x = true) (hlc : 2 ≤ c.length ∧ c.length ≤ 4)
    (hs1 : s1 = '/' ∨ s1 = '-') (hs2 : s2 = '/' ∨ s2 = '-') :
    euroParse (mkEuro a s1 b s2 c).data =
      some (digitsToNat a, digitsToNat b, some (digitsToNat c)) := by
  have hs1d : isDig s1 = false := by rcases hs1 with rfl | rfl <;> decide
  have hs2d : isDig s2 = false := by rcases hs2 with rfl | rfl <;> decide
  have hdata : (mkEuro a s1 b s2 c).data = a ++ s1 :: (b ++ s2 :: c) := rfl
  rw [hdata]
  unfold euroParse
  rw [takeWhile_append_all ha, dropWhile_append_all ha,
    takeWhile_cons_false hs1d, dropWhile_cons_false hs1d]
  simp only [List.append_nil, if_pos hla]
  rw [if_pos hs1, takeWhile_append_all hb, dropWhile_append_all hb,
    takeWhile_cons_false hs2d, dropWhile_cons_false hs2d]
  simp only [List.append_nil, if_pos hlb, if_pos hs2]
  rw [List.takeWhile_eq_self_iff.mpr hcd, List.dropWhile_eq_nil_iff.mpr fun x hx => hcd x hx]
  rw [if_pos ⟨hlc.1, hlc.2, rfl⟩]

theorem euroParse_mkEuro2 {a b : List Char} {s1 : Char}
    (ha : ∀ x ∈ a, isDig x = true) (hla : 1 ≤ a.length ∧ a.length ≤ 2)
    (hb : ∀ x ∈ b, isDig x = true) (hlb : 1 ≤ b.length ∧ b.length ≤ 2)
    (hs1 : s1 = '/' ∨ s1 = '-') :
    euroParse (mkEuro2 a s1 b).data = some (digitsToNat a, digitsToNat b, none) := by
  have hs1d : isDig s1 = false := by rcases hs1 with rfl | rfl <;> decide
  have hdata : (mkEuro2 a s1 b).data = a ++ s1 :: b := rfl
  rw [hdata]
  unfold euroParse
  rw [takeWhile_append_all ha, dropWhile_append_all ha,
    takeWhile_cons_false hs1d, dropWhile_cons_false hs1d]
  simp only [List.append_nil, if_pos hla]
  rw [if_pos hs1, List.takeWhile_eq_self_iff.mpr hb,
    List.dropWhile_eq_nil_iff.mpr fun x hx => hb x hx]
  rw [if_pos hlb]

end DateUtility

namespace JsModel

theorem string_data_append (s t : String) : (s ++ t).data = s.data ++ t.data := rfl

theorem digitsToNat_aux_lt : ∀ (l : List Char), (∀ c ∈ l, isDig c = true) → ∀ acc : Nat,
    List.foldl (fun a c => a * 10 + digVal c) acc l < (acc + 1) * 10 ^ l.length := by
  intro l
  induction l with
  | nil => intro _ acc; simp [Nat.lt_succ_self]
  | cons x t ih =>
    intro h acc
    have hx : digVal x ≤ 9 := by
      have := isDig_toNat (h x (by simp))
      unfold digVal
      omega
    have h1 := ih (fun c hc => h c (by simp [hc])) (acc * 10 + digVal x)
    have h2 : (acc * 10 + digVal x + 1) * 10 ^ t.length ≤ (acc + 1) * 10 ^ (t.length + 1) := by
      have hstep : acc * 10 + digVal x + 1 ≤ (acc + 1) * 10 := by omega
      calc (acc * 10 + digVal x + 1) * 10 ^ t.length
          ≤ ((acc + 1) * 10) * 10 ^ t.length := Nat.mul_le_mul_right _ hstep
        _ = (acc + 1) * 10 ^ (t.length + 1) := by ring
    calc List.foldl (fun a c => a * 10 + digVal c) (acc * 10 + digVal x) t
        < (acc * 10 + digVal x + 1) * 10 ^ t.length := h1
      _ ≤ (acc + 1) * 10 ^ (t.length + 1) := h2

theorem digitsToNat_lt {l : List Char} (h : ∀ c ∈ l, isDig c = true) :
    digitsToNat l < 10 ^ l.length := by
  have := digitsToNat_aux_lt l h 0
  simpa [digitsToNat] using this

end JsModel

namespace DateUtility

theorem jsNewDate_build {y m d : Nat} (hy : 1000 ≤ y ∧ y ≤ 9999) (hm : m ≤ 99) (hd : d ≤ 99) :
    jsNewDate (natRepr y ++ "-" ++ pad2 m ++ "-" ++ pad2 d) =
      (if 1 ≤ m ∧ m ≤ 12 ∧ 1 ≤ d ∧ d ≤ daysInMonth y m then some ⟨y, m, d⟩ else none) := by
  have hdata : (natRepr y ++ "-" ++ pad2 m ++ "-" ++ pad2 d).data =
      [digChar (y / 1000), digChar (y / 100), digChar (y / 10), digChar y, '-',
       digChar (m / 10), digChar m, '-', digChar (d / 10), digChar d] := by
    simp only [string_data_append]
    rw [natRepr_data_four hy.1 hy.2, pad2_data hm, pad2_data hd]
    rfl
  have hmatch : matchesISOFormat (String.mk
      [digChar (y / 1000), digChar (y / 100), digChar (y / 10), digChar y, '-',
       digChar (m / 10), digChar m, '-', digChar (d / 10), digChar d]) = true := by
    simp [matchesISOFormat, isDig_digChar]
  have hcomp : isoComponents (String.mk
      [digChar (y / 1000), digChar (y / 100), digChar (y / 10), digChar y, '-',
       digChar (m / 10), digChar m, '-', digChar (d / 10), digChar d]) = (y, m, d) := by
    simp only [isoComponents]
    rw [digVal_digChar, digVal_digChar, digVal_digChar, digVal_digChar,
      digVal_digChar, digVal_digChar, digVal_digChar, digVal_digChar]
    rw [Prod.mk.injEq, Prod.mk.injEq]
    refine ⟨by omega, by omega, by omega⟩
  unfold jsNewDate
  rw [hdata]
  have htake : List.take 10
      [digChar (y / 1000), digChar (y / 100), digChar (y / 10), digChar y, '-',
       digChar (m / 10), digChar m, '-', digChar (d / 10), digChar d] =
      [digChar (y / 1000), digChar (y / 100), digChar (y / 10), digChar y, '-',
       digChar (m / 10), digChar m, '-', digChar (d / 10), digChar d] := rfl
  have hdrop : List.drop 10
      [digChar (y / 1000), digChar (y / 100), digChar (y / 10), digChar y, '-',
       digChar (m / 10), digChar m, '-', digChar (d / 10), digChar d] = ([] : List Char) := rfl
  rw [htake, hdrop]
  simp only [hmatch, hcomp, if_true, true_or]

end DateUtility

namespace DateUtility

theorem sep_range {s : Char} (hs : s = '/' ∨ s = '-') : 45 ≤ s.toNat ∧ s.toNat ≤ 57 := by
  rcases hs with rfl | rfl <;> exact ⟨by decide, by decide⟩

theorem matchDayMonth_none_sep {a rest : List Char} {s1 : Char}
    (ha : ∀ x ∈ a, isDig x = true) (hs1 : s1 = '/' ∨ s1 = '-') :
    matchDayMonth (a ++ s1 :: rest) = none := by
  have hs1d : isDig s1 = false := by rcases hs1 with rfl | rfl <;> decide
  unfold matchDayMonth
  rw [takeWhile_append_all ha, dropWhile_append_all ha,
    takeWhile_cons_false hs1d, dropWhile_cons_false hs1d]
  simp only [List.append_nil]
  by_cases hlen : 1 ≤ a.length ∧ a.length ≤ 2
  · rw [if_pos hlen]
    have hso : stripOrdinal (s1 :: rest) = s1 :: rest := by
      unfold stripOrdinal
      rw [if_neg]
      rcases hs1 with rfl | rfl <;> simp [leadsWith]
    rw [hso]
    have hspace : isJsSpace s1 = false := isJsSpace_false (by have := sep_range hs1; omega)
    rw [takeWhile_cons_false hspace]
    simp
  · rw [if_neg hlen]

theorem parseTextValue_euro {s : String} {D M : Nat} {yo : Option Nat}
    (hp : euroParse s.data = some (D, M, yo))
    (hne : s ≠ "")
    (hupper : jsTrim (jsToUpper s) = s)
    (hmd : matchMonthDay s.data = none)
    (hdm : matchDayMonth s.data = none)
    (hni : nameIndex s = none)
    (role : Bool) (ryOpt : Option Nat) (now : Nat) :
    parseTextValue s role ryOpt now =
      (let year0 := yo.getD (jsOrYear ryOpt now)
       let day := if M > 12 ∧ D ≤ 12 then M else D
       let month := if M > 12 ∧ D ≤ 12 then D else M
       if day < 1 ∨ day > 31 ∨ month < 1 ∨ month > 12 then ""
       else
         let year := if year0 < 100 then 2000 + year0 else year0
         let result := natRepr year ++ "-" ++ pad2 month ++ "-" ++ pad2 day
         match jsNewDate result with
         | some _ => result
         | none => "") := by
  unfold parseTextValue
  rw [if_neg hne]
  simp only [hupper, hmd, hdm, hni, hp]

end DateUtility

namespace DateUtility

theorem euroSwap_core2 (D M yr : Nat) (hM : M > 12) (hD : D ≤ 12)
    (hMlt : M ≤ 99) (hyr4 : 1000 ≤ yr ∧ yr ≤ 9999) :
    (if M < 1 ∨ M > 31 ∨ D < 1 ∨ D > 12 then ""
     else
       match jsNewDate (natRepr yr ++ "-" ++ pad2 D ++ "-" ++ pad2 M) with
       | some _ => natRepr yr ++ "-" ++ pad2 D ++ "-" ++ pad2 M
       | none => "") =
    (if 1 ≤ D ∧ M ≤ 31 ∧ M ≤ daysInMonth yr D then
       natRepr yr ++ "-" ++ pad2 D ++ "-" ++ pad2 M
     else "") := by
  have hdm31 := daysInMonth_le yr D
  by_cases hval : M < 1 ∨ M > 31 ∨ D < 1 ∨ D > 12
  · rw [if_pos hval, if_neg (by omega)]
  · rw [if_neg hval, jsNewDate_build hyr4 (by omega) (by omega)]
    by_cases hcal : 1 ≤ D ∧ D ≤ 12 ∧ 1 ≤ M ∧ M ≤ daysInMonth yr D
    · rw [if_pos hcal, if_pos (by omega)]
    · rw [if_neg hcal, if_neg (by omega)]

end DateUtility

namespace DateUtility

theorem mkEuro_pre {a b c : List Char} {s1 s2 : Char}
    (ha : ∀ x ∈ a, isDig x = true) (hla : 1 ≤ a.length)
    (hb : ∀ x ∈ b, isDig x = true)
    (hcd : ∀ x ∈ c, isDig x = true)
    (hs1 : s1 = '/' ∨ s1 = '-') (hs2 : s2 = '/' ∨ s2 = '-') :
    mkEuro a s1 b s2 c ≠ "" ∧
    jsTrim (jsToUpper (mkEuro a s1 b s2 c)) = mkEuro a s1 b s2 c ∧
    matchMonthDay (mkEuro a s1 b s2 c).data = none ∧
    matchDayMonth (mkEuro a s1 b s2 c).data = none ∧
    nameIndex (mkEuro a s1 b s2 c) = none := by
  obtain ⟨h0, t0, rfl⟩ : ∃ h0 t0, a = h0 :: t0 := by
    cases a with
    | nil => simp at hla
    | cons x xs => exact ⟨x, xs, rfl⟩
  have hh0 : isDig h0 = true := ha h0 (by simp)
  have hdata : (mkEuro (h0 :: t0) s1 b s2 c).data =
      h0 :: (t0 ++ (s1 :: (b ++ (s2 :: c)))) := rfl
  have hchars : ∀ x ∈ (mkEuro (h0 :: t0) s1 b s2 c).data, 45 ≤ x.toNat ∧ x.toNat ≤ 57 := by
    intro x hx
    rw [hdata] at hx
    simp only [List.mem_cons, List.mem_append] at hx
    rcases hx with rfl | hx | hx | hx | rfl | hx
    · exact ⟨by have := (isDig_toNat hh0).1; omega, (isDig_toNat hh0).2⟩
    · have := isDig_toNat (ha x (by simp [hx]))
      omega
    · exact hx ▸ sep_range hs1
    · have := isDig_toNat (hb x hx)
      omega
    · exact sep_range hs2
    · have := isDig_toNat (hcd x hx)
      omega
  refine ⟨?_, ?_, ?_, ?_, ?_⟩
  · intro e
    have := congrArg String.data e
    rw [hdata] at this
    simp at this
  · rw [jsToUpper_eq_self fun x hx => by have := hchars x hx; omega]
    exact jsTrim_eq_self fun x hx => isJsSpace_false (by have := hchars x hx; omega)
  · rw [hdata]
    exact matchMonthDay_none_of_digit_head hh0
  · have hd2 : (mkEuro (h0 :: t0) s1 b s2 c).data =
        (h0 :: t0) ++ (s1 :: (b ++ (s2 :: c))) := rfl
    rw [hd2]
    exact matchDayMonth_none_sep ha hs1
  · exact nameIndex_none_of_digit_head hdata hh0

end DateUtility

namespace DateUtility

theorem mkEuro2_pre {a b : List Char} {s1 : Char}
    (ha : ∀ x ∈ a, isDig x = true) (hla : 1 ≤ a.length)
    (hb : ∀ x ∈ b, isDig x = true)
    (hs1 : s1 = '/' ∨ s1 = '-') :
    mkEuro2 a s1 b ≠ "" ∧
    jsTrim (jsToUpper (mkEuro2 a s1 b)) = mkEuro2 a s1 b ∧
    matchMonthDay (mkEuro2 a s1 b).data = none ∧
    matchDayMonth (mkEuro2 a s1 b).data = none ∧
    nameIndex (mkEuro2 a s1 b) = none := by
  obtain ⟨h0, t0, rfl⟩ : ∃ h0 t0, a = h0 :: t0 := by
    cases a with
    | nil => simp at hla
    | cons x xs => exact ⟨x, xs, rfl⟩
  have hh0 : isDig h0 = true := ha h0 (by simp)
  have hdata : (mkEuro2 (h0 :: t0) s1 b).data = h0 :: (t0 ++ (s1 :: b)) := rfl
  have hchars : ∀ x ∈ (mkEuro2 (h0 :: t0) s1 b).data, 45 ≤ x.toNat ∧ x.toNat ≤ 57 := by
    intro x hx
    rw [hdata] at hx
    simp only [List.mem_cons, List.mem_append] at hx
    rcases hx with rfl | hx | rfl | hx
    · exact ⟨by have := (isDig_toNat hh0).1; omega, (isDig_toNat hh0).2⟩
    · have := isDig_toNat (ha x (by simp [hx]))
      omega
    · exact sep_range hs1
    · have := isDig_toNat (hb x hx)
      omega
  refine ⟨?_, ?_, ?_, ?_, ?_⟩
  · intro e
    have := congrArg String.data e
    rw [hdata] at this
    simp at this
  · rw [jsToUpper_eq_self fun x hx => by have := hchars x hx; omega]
    exact jsTrim_eq_self fun x hx => isJsSpace_false (by have := hchars x hx; omega)
  · rw [hdata]
    exact matchMonthDay_none_of_digit_head hh0
  · have hd2 : (mkEuro2 (h0 :: t0) s1 b).data = (h0 :: t0) ++ (s1 :: b) := rfl
    rw [hd2]
    exact matchDayMonth_none_sep ha hs1
  · exact nameIndex_none_of_digit_head hdata hh0

end DateUtility

/-! ## Claim theorem: C8 -/

/-- **C8.** For every European numeric date input whose month field exceeds
12 while its day field is at most 12, day and month are swapped before
validation (the output, when valid, uses the month field as the day and the
day field as the month); if the swapped date is still not a valid calendar
date, normalization returns the absent result `""` rather than any guessed
date.  Both the year-carrying and the year-less European forms are covered,
and in particular `normalize("31/02/25", 2025, 'end') = ""` because
February 31 is invalid. -/
theorem C8_day_month_swap :
    (∀ (a b c : List Char) (s1 s2 : Char) (role : Bool) (ryOpt : Option Nat) (now : Nat),
      (∀ x ∈ a, isDig x = true) → 1 ≤ a.length ∧ a.length ≤ 2 →
      (∀ x ∈ b, isDig x = true) → 1 ≤ b.length ∧ b.length ≤ 2 →
      (∀ x ∈ c, isDig x = true) → 2 ≤ c.length ∧ c.length ≤ 4 →
      s1 = '/' ∨ s1 = '-' → s2 = '/' ∨ s2 = '-' →
      digitsToNat b > 12 → digitsToNat a ≤ 12 →
      (digitsToNat c < 100 ∨ 1000 ≤ digitsToNat c) →
      parseTextValue (mkEuro a s1 b s2 c) role ryOpt now =
        (if 1 ≤ digitsToNat a ∧ digitsToNat b ≤ 31 ∧
            digitsToNat b ≤ daysInMonth
              (if digitsToNat c < 100 then 2000 + digitsToNat c else digitsToNat c)
              (digitsToNat a) then
          natRepr (if digitsToNat c < 100 then 2000 + digitsToNat c else digitsToNat c) ++
            "-" ++ pad2 (digitsToNat a) ++ "-" ++ pad2 (digitsToNat b)
        else "")) ∧
    (∀ (a b : List Char) (s1 : Char) (role : Bool) (ryOpt : Option Nat) (now : Nat),
      (∀ x ∈ a, isDig x = true) → 1 ≤ a.length ∧ a.length ≤ 2 →
      (∀ x ∈ b, isDig x = true) → 1 ≤ b.length ∧ b.length ≤ 2 →
      s1 = '/' ∨ s1 = '-' →
      digitsToNat b > 12 → digitsToNat a ≤ 12 →
      (jsOrYear ryOpt now < 100 ∨
        (1000 ≤ jsOrYear ryOpt now ∧ jsOrYear ryOpt now ≤ 9999)) →
      parseTextValue (mkEuro2 a s1 b) role ryOpt now =
        (if 1 ≤ digitsToNat a ∧ digitsToNat b ≤ 31 ∧
            digitsToNat b ≤ daysInMonth
              (if jsOrYear ryOpt now < 100 then 2000 + jsOrYear ryOpt now else jsOrYear ryOpt now)
              (digitsToNat a) then
          natRepr (if jsOrYear ryOpt now < 100 then 2000 + jsOrYear ryOpt now
            else jsOrYear ryOpt now) ++
            "-" ++ pad2 (digitsToNat a) ++ "-" ++ pad2 (digitsToNat b)
        else "")) ∧
    parseTextValue "31/02/25" true (some 2025) 0 = "" := by
  refine ⟨?_, ?_, by decide⟩
  · intro a b c s1 s2 role ryOpt now ha hla hb hlb hcd hlc hs1 hs2 hMgt hDle hyc
    have pre := mkEuro_pre ha hla.1 hb hcd hs1 hs2
    rw [parseTextValue_euro (euroParse_mkEuro ha hla hb hlb hcd hlc hs1 hs2)
      pre.1 pre.2.1 pre.2.2.1 pre.2.2.2.1 pre.2.2.2.2 role ryOpt now]
    have hM99 : digitsToNat b ≤ 99 := by
      have h1 := digitsToNat_lt hb
      have h2 : (10 : Nat) ^ b.length ≤ 10 ^ 2 := Nat.pow_le_pow_right (by omega) hlb.2
      omega
    simp only [Option.getD_some, if_pos (And.intro hMgt hDle)]
    rcases Nat.lt_or_ge (digitsToNat c) 100 with h100 | h100
    · simp only [if_pos h100]
      exact euroSwap_core2 (digitsToNat a) (digitsToNat b) (2000 + digitsToNat c)
        hMgt hDle hM99 ⟨by omega, by omega⟩
    · have h1000 : 1000 ≤ digitsToNat c := by omega
      have h9999 : digitsToNat c ≤ 9999 := by
        have h1 := digitsToNat_lt hcd
        have h2 : (10 : Nat) ^ c.length ≤ 10 ^ 4 := Nat.pow_le_pow_right (by omega) hlc.2
        omega
      simp only [if_neg (show ¬digitsToNat c < 100 by omega)]
      exact euroSwap_core2 (digitsToNat a) (digitsToNat b) (digitsToNat c)
        hMgt hDle hM99 ⟨h1000, h9999⟩
  · intro a b s1 role ryOpt now ha hla hb hlb hs1 hMgt hDle hyc
    have pre := mkEuro2_pre ha hla.1 hb hs1
    rw [parseTextValue_euro (euroParse_mkEuro2 ha hla hb hlb hs1)
      pre.1 pre.2.1 pre.2.2.1 pre.2.2.2.1 pre.2.2.2.2 role ryOpt now]
    have hM99 : digitsToNat b ≤ 99 := by
      have h1 := digitsToNat_lt hb
      have h2 : (10 : Nat) ^ b.length ≤ 10 ^ 2 := Nat.pow_le_pow_right (by omega) hlb.2
      omega
    simp only [Option.getD_none, if_pos (And.intro hMgt hDle)]
    rcases Nat.lt_or_ge (jsOrYear ryOpt now) 100 with h100 | h100
    · simp only [if_pos h100]
      exact euroSwap_core2 (digitsToNat a) (digitsToNat b) (2000 + jsOrYear ryOpt now)
        hMgt hDle hM99 ⟨by omega, by omega⟩
    · have h4 : 1000 ≤ jsOrYear ryOpt now ∧ jsOrYear ryOpt now ≤ 9999 := by
        rcases hyc with h | h
        · omega
        · exact h
      simp only [if_neg (show ¬jsOrYear ryOpt now < 100 by omega)]
      exact euroSwap_core2 (digitsToNat a) (digitsToNat b) (jsOrYear ryOpt now)
        hMgt hDle hM99 h4

/-- Witness for C8: the US-style input `"05/14/25"` has month field 14 > 12
and day field 5 ≤ 12; day and month are swapped and it normalizes to
`2025-05-14`. -/
theorem C8_day_month_swap_witness :
    parseTextValue (mkEuro ['0', '5'] '/' ['1', '4'] '/' ['2', '5']) true (some 2025) 0 =
      "2025-05-14" := by
  rw [C8_day_month_swap.1 ['0', '5'] ['1', '4'] ['2', '5'] '/' '/' true (some 2025) 0
    (by decide) (by decide) (by decide) (by decide) (by decide) (by decide)
    (Or.inl rfl) (Or.inl rfl) (by decide) (by decide) (by decide)]
  decide

/-! ## Claim C9: purity / wall-clock independence -/

namespace JsModel

theorem contains_eq_false {x : Char} {l : List Char}
    (h : ∀ y ∈ l, (x == y) = false) : l.contains x = false := by
  induction l with
  | nil => rfl
  | cons c rest ih =>
    rw [List.contains_cons, h c (List.mem_cons_self c rest), Bool.false_or]
    exact ih fun y hy => h y (List.mem_cons_of_mem _ hy)

theorem contains_of_mem {x : Char} {l : List Char} (h : x ∈ l) : l.contains x = true := by
  induction l with
  | nil => cases h
  | cons c rest ih =>
    rw [List.contains_cons]
    rcases List.mem_cons.mp h with rfl | h2
    · simp
    · rw [ih h2, Bool.or_true]

theorem splitChar_append_sep {sep : Char} {l r : List Char}
    (hl : ∀ x ∈ l, (x == sep) = false) :
    splitChar sep (l ++ sep :: r) = l :: splitChar sep r := by
  induction l with
  | nil => simp [splitChar]
  | cons c cs ih =>
    have hc := hl c (List.mem_cons_self c cs)
    have ih2 := ih fun x hx => hl x (List.mem_cons_of_mem _ hx)
    simp [splitChar, hc, ih2]

theorem splitChar_no_sep {sep : Char} {l : List Char}
    (hl : ∀ x ∈ l, (x == sep) = false) : splitChar sep l = [l] := by
  induction l with
  | nil => rfl
  | cons c cs ih =>
    have hc := hl c (List.mem_cons_self c cs)
    have ih2 := ih fun x hx => hl x (List.mem_cons_of_mem _ hx)
    simp [splitChar, hc, ih2]

end JsModel

namespace DateUtility

theorem convertEuropeanToISO_mkEuro {a b c : List Char} {sep : Char}
    (ha : ∀ x ∈ a, isDig x = true)
    (hb : ∀ x ∈ b, isDig x = true)
    (hcd : ∀ x ∈ c, isDig x = true) (hc0 : c ≠ [])
    (hs : sep = '/' ∨ sep = '-') (ry : Option Nat) (n : Nat) :
    convertEuropeanToISO (mkEuro a sep b sep c) ry n =
      euroConvertResult (mkEuro a sep b sep c) (parseIntJS a) (parseIntJS b)
        (String.mk c) := by
  obtain ⟨c0, cs, rfl⟩ : ∃ c0 cs, c = c0 :: cs := by
    cases c with
    | nil => exact absurd rfl hc0
    | cons x xs => exact ⟨x, xs, rfl⟩
  have hsd : isDig sep = false := by rcases hs with rfl | rfl <;> decide
  have hdata : (mkEuro a sep b sep (c0 :: cs)).data =
      a ++ sep :: (b ++ sep :: (c0 :: cs)) := rfl
  have hne : mkEuro a sep b sep (c0 :: cs) ≠ "" := by
    intro e
    have h2 := congrArg String.data e
    rw [hdata] at h2
    simp at h2
  have hsplit : splitChar sep (a ++ sep :: (b ++ sep :: (c0 :: cs))) =
      [a, b, c0 :: cs] := by
    rw [splitChar_append_sep fun x hx => (beq_false_of_isDig (ha x hx) hsd).1,
      splitChar_append_sep fun x hx => (beq_false_of_isDig (hb x hx) hsd).1,
      splitChar_no_sep fun x hx => (beq_false_of_isDig (hcd x hx) hsd).1]
  have hparts :
      (if (mkEuro a sep b sep (c0 :: cs)).data.contains '/' then
        some (splitChar '/' (mkEuro a sep b sep (c0 :: cs)).data)
      else if (mkEuro a sep b sep (c0 :: cs)).data.contains '-' then
        some (splitChar '-' (mkEuro a sep b sep (c0 :: cs)).data)
      else none) = some [a, b, c0 :: cs] := by
    rcases hs with rfl | rfl
    · have h1 : (mkEuro a '/' b '/' (c0 :: cs)).data.contains '/' = true := by
        apply contains_of_mem
        rw [hdata]
        simp
      rw [h1, if_pos rfl, hdata, hsplit]
    · have h0 : (mkEuro a '-' b '-' (c0 :: cs)).data.contains '/' = false := by
        apply contains_eq_false
        intro y hy
        rw [hdata] at hy
        simp only [List.mem_append, List.mem_cons] at hy
        rcases hy with hy | rfl | hy | rfl | rfl | hy
        · exact (beq_false_of_isDig (ha y hy) (by decide)).2
        · decide
        · exact (beq_false_of_isDig (hb y hy) (by decide)).2
        · decide
        · exact (beq_false_of_isDig (hcd y (List.mem_cons_self _ _)) (by decide)).2
        · exact (beq_false_of_isDig (hcd y (List.mem_cons_of_mem _ hy)) (by decide)).2
      have h2 : (mkEuro a '-' b '-' (c0 :: cs)).data.contains '-' = true := by
        apply contains_of_mem
        rw [hdata]
        simp
      rw [h0, if_neg (by decide), h2, if_pos rfl, hdata, hsplit]
  have hg0 : ([a, b, c0 :: cs].getD 0 []) = a := rfl
  have hg1 : ([a, b, c0 :: cs].getD 1 []) = b := rfl
  have hg2 : ([a, b, c0 :: cs].getD 2 []) = c0 :: cs := rfl
  unfold convertEuropeanToISO
  rw [if_neg hne]
  simp only [hparts]
  rw [if_pos (show ([a, b, c0 :: cs] : List (List Char)).length ≥ 2 by simp)]
  rw [hg0, hg1, hg2]
  cases parseIntJS a <;> cases parseIntJS b <;> rfl

end DateUtility

/-- **C9.** Corrected.  The spec claims full purity: no wall-clock fallback
anywhere and no mutation of the input story.  What does hold: grid
resolution is deterministic — independent of the wall clock — for every
ISO-format input, and for every well-formed European input whose year group
is present (day group 1–2 digits, month group 1–2 digits, year group 2–4
digits, a uniform `/` or `-` separator).  The wall clock only enters when
the year group is absent, and `generateStory` does modify its input story —
see the counterexample. -/
theorem C9_purity_amended :
    (∀ (s : String) (n1 n2 : Nat), matchesISOFormat s = true →
      getGridPosition s n1 = getGridPosition s n2) ∧
    (∀ (a b c : List Char) (sep : Char) (n1 n2 : Nat),
      (∀ x ∈ a, isDig x = true) → 1 ≤ a.length → a.length ≤ 2 →
      (∀ x ∈ b, isDig x = true) → 1 ≤ b.length → b.length ≤ 2 →
      (∀ x ∈ c, isDig x = true) → 2 ≤ c.length → c.length ≤ 4 →
      (sep = '/' ∨ sep = '-') →
      getGridPosition (mkEuro a sep b sep c) n1 =
        getGridPosition (mkEuro a sep b sep c) n2) := by
  have hA : ∀ (s : String) (n1 n2 : Nat), matchesISOFormat s = true →
      getGridPosition s n1 = getGridPosition s n2 := by
    intro s n1 n2 h
    have hne : s ≠ "" := by
      intro e
      rw [e] at h
      exact absurd h (by decide)
    unfold getGridPosition
    rw [if_neg hne, if_pos h, if_neg hne, if_pos h]
  refine ⟨hA, ?_⟩
  intro a b c sep n1 n2 ha hla1 hla2 hb hlb1 hlb2 hcd hlc1 hlc2 hs
  have hc0 : c ≠ [] := by
    intro e
    rw [e] at hlc1
    simp at hlc1
  by_cases hiso : matchesISOFormat (mkEuro a sep b sep c) = true
  · exact hA _ n1 n2 hiso
  · have hep := euroParse_mkEuro ha ⟨hla1, hla2⟩ hb ⟨hlb1, hlb2⟩ hcd ⟨hlc1, hlc2⟩ hs hs
    have hne : mkEuro a sep b sep c ≠ "" := (mkEuro_pre ha hla1 hb hcd hs hs).1
    have hrw := convertEuropeanToISO_mkEuro ha hb hcd hc0 hs none
    unfold getGridPosition
    rw [if_neg hne, if_neg hiso, hep, if_pos Option.isSome_some,
      if_neg hne, if_neg hiso, if_pos Option.isSome_some, hrw n1, hrw n2]

/-- Witness for C9: an ISO start date and a fully specified European date
each resolve to the same grid column under a 2024 and a 2025 wall clock. -/
theorem C9_purity_amended_witness :
    getGridPosition "2025-03-15" 2024 = getGridPosition "2025-03-15" 2025 ∧
    getGridPosition (mkEuro ['1', '5'] '/' ['0', '3'] '/' ['2', '5']) 2024 =
      getGridPosition (mkEuro ['1', '5'] '/' ['0', '3'] '/' ['2', '5']) 2025 :=
  ⟨C9_purity_amended.1 "2025-03-15" 2024 2025 (by decide),
   C9_purity_amended.2 ['1', '5'] ['0', '3'] ['2', '5'] '/' 2024 2025
     (by decide) (by decide) (by decide) (by decide) (by decide) (by decide)
     (by decide) (by decide) (by decide) (Or.inl rfl)⟩

/-- **C9** counterexample: the European date `"29/02"` has no year group, so
normalization falls back to the wall-clock year — under 2024 (a leap year)
it resolves to column 20, under 2025 the built ISO string is invalid and the
input falls through to the month-name lookup, giving column 1.  And the
start-resolution step of `generateStory` returns a story record different
from its input when the start year precedes the roadmap year (the source
mutates the story in place). -/
theorem C9_counterexample :
    getGridPosition "29/02" 2024 ≠ getGridPosition "29/02" 2025 ∧
    (RoadmapGenerator.generateStoryStartPair { startDate := some "2024-06-15" } 2025 0).2 ≠
      ({ startDate := some "2024-06-15" } : RoadmapGenerator.Story) := by
  constructor
  · decide
  · decide

/-! ## Claim C10: month-name lookup totality -/

/-- **C10.** The month-name → base-column lookup is total: a string whose
uppercasing equals the `m`-th (0-based) 3-letter or full month name resolves
to base column `m * 10 + 1` (so any casing is accepted), every string whose
uppercasing is not a table key resolves to January's base column 1, and in
particular the misspelling `"sept"` (not a table key) silently positions at
column 1. -/
theorem C10_month_lookup_total :
    (∀ m : Nat, m < 12 → ∀ s : String,
      jsToUpper s = ConfigUtility.monthNAMES.getD m "" →
      ConfigUtility.getMonthGridPosition s = m * 10 + 1) ∧
    (∀ m : Nat, m < 12 → ∀ s : String,
      jsToUpper s = ConfigUtility.monthFULLNAMES.getD m "" →
      ConfigUtility.getMonthGridPosition s = m * 10 + 1) ∧
    (∀ s : String, ConfigUtility.GRID_POSITIONS.lookup (jsToUpper s) = none →
      ConfigUtility.getMonthGridPosition s = 1) ∧
    ConfigUtility.getMonthGridPosition "sept" = 1 := by
  refine ⟨?_, ?_, ?_, by decide⟩
  · intro m hm s hs
    unfold ConfigUtility.getMonthGridPosition
    rw [hs]
    interval_cases m <;> decide
  · intro m hm s hs
    unfold ConfigUtility.getMonthGridPosition
    rw [hs]
    interval_cases m <;> decide
  · intro s h
    unfold ConfigUtility.getMonthGridPosition
    rw [h]
    rfl

/-- Witness for C10: `"aUg"` (mixed casing of the 3-letter name), `"July"`
(mixed casing of the full name) and the unknown string `"blah"` resolve to
columns 71, 61 and 1. -/
theorem C10_month_lookup_total_witness :
    ConfigUtility.getMonthGridPosition "aUg" = 71 ∧
    ConfigUtility.getMonthGridPosition "July" = 61 ∧
    ConfigUtility.getMonthGridPosition "blah" = 1 :=
  ⟨C10_month_lookup_total.1 7 (by decide) "aUg" (by decide),
   C10_month_lookup_total.2.1 6 (by decide) "July" (by decide),
   C10_month_lookup_total.2.2.1 "blah" (by decide)⟩
